import Mathlib

/-!
Verification of the query-safety gate, result formatters and connection
registry of a multi-backend SQL command-line client.

JavaScript strings are modelled as `List Char`; JS `toUpperCase` is modelled
character-wise on the ASCII range (the queries, keywords and phrases the
policy handles are ASCII); JS `trim` drops leading and trailing whitespace.
Numbers reaching the formatters are SQL integers, modelled as `Int`.
External collaborators (the mysql2/pg drivers and the toon encoder) are
modelled as explicit oracle parameters; a JS `Date` is modelled by its
validity flag together with its ISO rendering and display rendering, a
`Buffer` by its bytes, base64 rendering and display rendering.
-/

/-- JS string: a list of characters. -/
abbrev JStr := List Char

/-- Whitespace as JS `trim` and `\s` treat it (ASCII fragment). -/
def isWS (c : Char) : Bool :=
  c = ' ' || c = '\t' || c = '\n' || c = '\r'

/-- Character-wise model of JS `toUpperCase` (ASCII range). -/
def upperChar (c : Char) : Char :=
  if 'a' ≤ c && c ≤ 'z' then Char.ofNat (c.toNat - 32) else c

/-- JS `s.toUpperCase()`. -/
def jsUpper (s : JStr) : JStr := s.map upperChar

/-- Drop leading whitespace. -/
def jsTrimLeft (s : JStr) : JStr := s.dropWhile isWS

/-- JS `s.trim()`: drop leading and trailing whitespace. -/
def jsTrim (s : JStr) : JStr := ((s.dropWhile isWS).reverse.dropWhile isWS).reverse

/-- JS `hay.includes(needle)`: substring containment. -/
def jsIncludes (hay needle : JStr) : Bool :=
  match hay with
  | [] => needle.isEmpty
  | _ :: rest => needle.isPrefixOf hay || jsIncludes rest needle

/-- Decimal digits of a natural number, most significant first; `fuel`
bounds the recursion and is structurally consumed so that the kernel can
evaluate the definition. -/
def natToCharsAux (fuel : Nat) (n : Nat) : List Char :=
  match fuel with
  | 0 => []
  | fuel + 1 =>
    if n < 10 then [Char.ofNat (48 + n)]
    else natToCharsAux fuel (n / 10) ++ [Char.ofNat (48 + n % 10)]

/-- JS rendering of a natural number (decimal). -/
def natToChars (n : Nat) : List Char := natToCharsAux (n + 1) n

/-- JS rendering of an integer (decimal, `-` sign). -/
def intToChars (n : Int) : List Char :=
  if n < 0 then '-' :: natToChars n.natAbs else natToChars n.toNat

/-! ## query-validator: blacklist, confirmation, classification, advisories -/

/-- Result of `checkBlacklist` (source interface `BlacklistCheckResult`). -/
structure BlacklistCheckResult where
  allowed : Bool
  reason : Option JStr
deriving DecidableEq

/-- Result of `requiresConfirmation` (source `ConfirmationCheckResult`). -/
structure ConfirmationCheckResult where
  required : Bool
  message : Option JStr
deriving DecidableEq

/-- The reason string `Operation "{operation}" is blacklisted and not allowed`. -/
def blacklistReason (operation : JStr) : JStr :=
  "Operation \"".data ++ operation ++ "\" is blacklisted and not allowed".data

/-- Loop of `checkBlacklist` over the blacklisted operations; `nq` is the
trimmed, uppercased query. -/
def checkBlacklistAux (nq : JStr) : List JStr → BlacklistCheckResult
  | [] => { allowed := true, reason := none }
  | operation :: rest =>
    if jsIncludes nq (jsUpper operation) then
      { allowed := false, reason := some (blacklistReason operation) }
    else
      checkBlacklistAux nq rest

/-- `checkBlacklist(query, blacklistedOperations)`: case-insensitive substring
match of each blacklisted phrase against the trimmed statement. -/
def checkBlacklist (query : JStr) (blacklistedOperations : List JStr) : BlacklistCheckResult :=
  checkBlacklistAux (jsUpper (jsTrim query)) blacklistedOperations

/-- The message `This query contains a destructive operation: {operation}`. -/
def confirmationMessage (operation : JStr) : JStr :=
  "This query contains a destructive operation: ".data ++ operation

/-- One keyword's test in `requiresConfirmation`:
`normalizedQuery.startsWith(normalizedOp) || normalizedQuery.includes(` + `\x20${normalizedOp}\x20` + `)`. -/
def confirmationHit (nq : JStr) (operation : JStr) : Bool :=
  (jsUpper operation).isPrefixOf nq ||
    jsIncludes nq (' ' :: (jsUpper operation ++ [' ']))

/-- Loop of `requiresConfirmation` over the confirmation keywords. -/
def requiresConfirmationAux (nq : JStr) : List JStr → ConfirmationCheckResult
  | [] => { required := false, message := none }
  | operation :: rest =>
    if confirmationHit nq operation then
      { required := true, message := some (confirmationMessage operation) }
    else
      requiresConfirmationAux nq rest

/-- `requiresConfirmation(query, confirmationOperations)`. -/
def requiresConfirmation (query : JStr) (confirmationOperations : List JStr) :
    ConfirmationCheckResult :=
  requiresConfirmationAux (jsUpper (jsTrim query)) confirmationOperations

/-- First whitespace-delimited token of the (already trimmed) query:
models `normalizedQuery.split(/\s+/)[0]` on a trimmed string. -/
def firstWord (nq : JStr) : JStr := nq.takeWhile (fun c => !isWS c)

/-- The keyword list of `getQueryType`. -/
def knownTypes : List JStr :=
  ["SELECT".data, "INSERT".data, "UPDATE".data, "DELETE".data, "DROP".data,
   "CREATE".data, "ALTER".data, "TRUNCATE".data, "SHOW".data, "DESCRIBE".data,
   "EXPLAIN".data]

/-- `getQueryType(query)`: the first token of the trimmed, uppercased
statement when it is a known keyword, `UNKNOWN` otherwise. -/
def getQueryType (query : JStr) : JStr :=
  let fw := firstWord (jsUpper (jsTrim query))
  if fw ∈ knownTypes then fw else "UNKNOWN".data

/-- An advisory from `analyzeQuery` (source interface `QueryWarning`);
`level` is `true` for warning, `false` for info. -/
structure QueryWarning where
  warningLevel : Bool
  message : JStr
  suggestion : JStr
deriving DecidableEq

/-- The missing-WHERE advisory. -/
def warnMissingWhere : QueryWarning :=
  { warningLevel := true
    message := "Missing WHERE clause in UPDATE/DELETE query".data
    suggestion := "This will affect all rows in the table. Add a WHERE clause to limit scope.".data }

/-- The SELECT-star advisory. -/
def warnSelectStar : QueryWarning :=
  { warningLevel := false
    message := "Using SELECT * may impact performance".data
    suggestion := "Consider selecting only the columns you need.".data }

/-- The SELECT-without-LIMIT advisory. -/
def warnNoLimit : QueryWarning :=
  { warningLevel := false
    message := "SELECT query without LIMIT".data
    suggestion := "Consider adding a LIMIT clause to prevent large result sets.".data }

/-- Condition of the missing-WHERE advisory on the normalized query. -/
def missingWhereCond (nq : JStr) : Bool :=
  (("UPDATE".data.isPrefixOf nq) || ("DELETE".data.isPrefixOf nq)) &&
    !(jsIncludes nq "WHERE".data)

/-- Condition of the SELECT-star advisory on the normalized query. -/
def selectStarCond (nq : JStr) : Bool := jsIncludes nq "SELECT *".data

/-- Condition of the SELECT-without-LIMIT advisory on the normalized query. -/
def noLimitCond (nq : JStr) : Bool :=
  "SELECT".data.isPrefixOf nq && !(jsIncludes nq "LIMIT".data)

/-- `analyzeQuery(query)`: the three advisories in source order. -/
def analyzeQuery (query : JStr) : List QueryWarning :=
  let nq := jsUpper (jsTrim query)
  (if missingWhereCond nq then [warnMissingWhere] else []) ++
    (if selectStarCond nq then [warnSelectStar] else []) ++
      (if noLimitCond nq then [warnNoLimit] else [])

/-- `applyDefaultLimit(query, defaultLimit)`: appends
` LIMIT {defaultLimit}` to the trimmed statement when the normalized
statement starts with `SELECT` and contains no `LIMIT` substring. -/
def applyDefaultLimit (query : JStr) (defaultLimit : Nat) : JStr :=
  let nq := jsUpper (jsTrim query)
  if "SELECT".data.isPrefixOf nq && !(jsIncludes nq "LIMIT".data) then
    jsTrim query ++ " LIMIT ".data ++ natToChars defaultLimit
  else
    query

/-! ## Row values

A cell value as the drivers hand it to the formatters. A `Date` is opaque
to this model: it carries its validity flag (`isNaN(getTime())`), its
`toISOString()` rendering and its `String()` rendering. A `Buffer` carries
its bytes, its `toString(\x27base64\x27)` rendering and its `String()`
rendering. -/

/-- A JavaScript value in a result row. -/
inductive JsValue where
  | vnull
  | vundefined
  | vbool (b : Bool)
  | vint (n : Int)
  | vstr (s : JStr)
  | vdate (valid : Bool) (iso : JStr) (display : JStr)
  | vbuffer (bytes : List Nat) (b64 : JStr) (display : JStr)
deriving DecidableEq

/-- A result row: ordered field-name/value pairs (a JS object's entries). -/
abbrev Row := List (JStr × JsValue)

/-- JS `value === null || value === undefined` (what `??` tests). -/
def JsValue.isNullish : JsValue → Bool
  | .vnull => true
  | .vundefined => true
  | _ => false

/-- JS `a ?? b`. -/
def nullishCoalesce (a b : JsValue) : JsValue :=
  if a.isNullish then b else a

/-- JS `String(value)` for the values the formatters meet. -/
def jsString : JsValue → JStr
  | .vnull => "null".data
  | .vundefined => "undefined".data
  | .vbool true => "true".data
  | .vbool false => "false".data
  | .vint n => intToChars n
  | .vstr s => s
  | .vdate _ _ display => display
  | .vbuffer _ _ display => display

/-- JS `row[name]`: the value under a field name; `undefined` when absent. -/
def getField (row : Row) (name : JStr) : JsValue :=
  match row.find? (fun kv => kv.1 = name) with
  | some kv => kv.2
  | none => .vundefined

/-! ## Result formatters (shared verbatim by the MySQL and PostgreSQL
utility classes; modelled once) -/

/-- A CSV cell before escaping: `String(row[name] ?? \x27\x27)`. -/
def csvCellString (row : Row) (name : JStr) : JStr :=
  jsString (nullishCoalesce (getField row name) (.vstr []))

/-- `str.replace(/"/g, \x27""\x27)`: double every double quote. -/
def doubleQuotes (s : JStr) : JStr :=
  s.flatMap (fun c => if c = '"' then ['"', '"'] else [c])

/-- CSV escaping: wrap in quotes, doubling internal quotes, when the cell
contains a comma, a quote or a newline. -/
def csvEscape (s : JStr) : JStr :=
  if s.contains ',' || s.contains '"' || s.contains '\n' then
    '"' :: (doubleQuotes s ++ ['"'])
  else s

/-- One CSV data line (without the trailing newline). -/
def csvLine (columnNames : List JStr) (row : Row) : JStr :=
  (List.intersperse [','] (columnNames.map (fun name => csvEscape (csvCellString row name)))).flatten

/-- `formatAsCsv(rows, fields)`: header line of column names, then one line
per row; empty input renders as the empty string. -/
def formatAsCsv (rows : List Row) (columnNames : List JStr) : JStr :=
  if rows.isEmpty then []
  else
    (List.intersperse [','] columnNames).flatten ++ ['\n'] ++
      (rows.map (fun row => csvLine columnNames row ++ ['\n'])).flatten

/-- A table cell before padding: `String(row[name] ?? \x27NULL\x27)`. -/
def tableCellString (row : Row) (name : JStr) : JStr :=
  jsString (nullishCoalesce (getField row name) (.vstr "NULL".data))

/-- JS `s.padEnd(w)`. -/
def padEnd (s : JStr) (w : Nat) : JStr := s ++ List.replicate (w - s.length) ' '

/-- Column width in `formatAsTable`: the maximum of the header length, the
widest cell rendered with `String(row[name] ?? \x27\x27)`, and 3. -/
def tableColumnWidth (rows : List Row) (name : JStr) : Nat :=
  max (max name.length
        ((rows.map (fun row => (jsString (nullishCoalesce (getField row name) (.vstr []))).length)).foldl max 0))
    3

/-- A horizontal border line of `formatAsTable`. -/
def tableBorder (widths : List Nat) (left mid right : Char) : JStr :=
  left :: (List.intersperse [mid] (widths.map (fun w => List.replicate (w + 2) '─'))).flatten ++ [right]

/-- A content line of `formatAsTable`. -/
def tableLine (cells : List JStr) : JStr :=
  '│' :: ' ' :: (List.intersperse [' ', '│', ' '] cells).flatten ++ [' ', '│']

/-- `formatAsTable(rows, fields)`: box-drawing grid; `No results` sentinel
for an empty result set; a NULL cell renders as the literal text `NULL`. -/
def formatAsTable (rows : List Row) (columnNames : List JStr) : JStr :=
  if rows.isEmpty then "No results".data
  else
    let widths := columnNames.map (fun name => tableColumnWidth rows name)
    tableBorder widths '┌' '┬' '┐' ++ ['\n'] ++
      tableLine (columnNames.map (fun name =>
        padEnd name (tableColumnWidth rows name))) ++ ['\n'] ++
      tableBorder widths '├' '┼' '┤' ++ ['\n'] ++
      (rows.map (fun row =>
        tableLine (columnNames.map (fun name =>
          padEnd (tableCellString row name) (tableColumnWidth rows name))) ++ ['\n'])).flatten ++
      tableBorder widths '└' '┴' '┘'

/-- The per-value serialization `formatAsToon` applies before encoding:
a valid `Date` becomes its ISO string, an invalid `Date` becomes null, a
`Buffer` becomes its base64 string, everything else passes through. -/
def toonSerializeValue : JsValue → JsValue
  | .vdate true iso _ => .vstr iso
  | .vdate false _ _ => .vnull
  | .vbuffer _ b64 _ => .vstr b64
  | v => v

/-- Per-row serialization of `formatAsToon`: `Object.entries` order is the
row's own order; keys are kept, values serialized. -/
def toonSerializeRow (row : Row) : Row :=
  row.map (fun kv => (kv.1, toonSerializeValue kv.2))

/-- `formatAsToon(rows)`, with the external toon `encode` as an oracle:
empty input renders as the empty string, otherwise the serialized rows are
handed to the encoder. -/
def formatAsToon (encode : List Row → JStr) (rows : List Row) : JStr :=
  if rows.isEmpty then [] else encode (rows.map toonSerializeRow)

/-! ## formatAsJson: JSON.stringify(rows, null, 2)

The rows the drivers produce are arrays of flat objects whose values are
scalars (or `Date`/`Buffer` objects, which `JSON.stringify` sends through
their `toJSON`), so the serializer below implements the ECMA-402
`JSON.stringify` pretty-printing algorithm on exactly that shape. -/

/-- Two-space indent (depth 1). -/
def indent2 : JStr := [' ', ' ']

/-- Four-space indent (depth 2). -/
def indent4 : JStr := indent2 ++ indent2

/-- Six-space indent (depth 3). -/
def indent6 : JStr := indent4 ++ indent2

/-- Eight-space indent (depth 4). -/
def indent8 : JStr := indent6 ++ indent2

/-- Lowercase hexadecimal digit. -/
def hexDigitChar (n : Nat) : Char :=
  if n < 10 then Char.ofNat (48 + n) else Char.ofNat (87 + n)

/-- JSON string escaping of one character, as `JSON.stringify` performs it:
quote, backslash and the five short escapes, `\u00XX` for the remaining
control characters, everything else verbatim. -/
def jsonEscapeChar (c : Char) : JStr :=
  if c = '"' then ['\\', '"']
  else if c = '\\' then ['\\', '\\']
  else if c = '\x08' then ['\\', 'b']
  else if c = '\t' then ['\\', 't']
  else if c = '\n' then ['\\', 'n']
  else if c = '\x0c' then ['\\', 'f']
  else if c = '\r' then ['\\', 'r']
  else if c.toNat < 32 then
    ['\\', 'u', '0', '0', hexDigitChar (c.toNat / 16), hexDigitChar (c.toNat % 16)]
  else [c]

/-- JSON escaping of a whole string. -/
def jsonEscape (s : JStr) : JStr := s.flatMap jsonEscapeChar

/-- A JSON string literal. -/
def jsonQuote (s : JStr) : JStr := '"' :: (jsonEscape s ++ ['"'])

/-- The `data` array of a serialized `Buffer`, at depth 3. -/
def bufferDataArr (bytes : List Nat) : JStr :=
  if bytes.isEmpty then ['[', ']']
  else
    '[' :: '\n' ::
      ((List.intersperse [',', '\n'] (bytes.map (fun b => indent8 ++ natToChars b))).flatten ++
        '\n' :: indent6 ++ [']'])

/-- `JSON.stringify` of a `Buffer` (via `Buffer.prototype.toJSON`) at a
row-member position (depth 2). -/
def bufferJson (bytes : List Nat) : JStr :=
  '{' :: '\n' ::
    (indent6 ++ "\"type\": \"Buffer\",".data ++ '\n' :: indent6 ++ "\"data\": ".data ++
      bufferDataArr bytes ++ '\n' :: indent4 ++ ['}'])

/-- `JSON.stringify` of one row value: `none` for `undefined` (the member
is skipped), the `toJSON`-converted form for `Date` and `Buffer`. -/
def stringifyScalar : JsValue → Option JStr
  | .vundefined => none
  | .vnull => some ['n', 'u', 'l', 'l']
  | .vbool true => some ['t', 'r', 'u', 'e']
  | .vbool false => some ['f', 'a', 'l', 's', 'e']
  | .vint n => some (intToChars n)
  | .vstr s => some (jsonQuote s)
  | .vdate true iso _ => some (jsonQuote iso)
  | .vdate false _ _ => some ['n', 'u', 'l', 'l']
  | .vbuffer bytes _ _ => some (bufferJson bytes)

/-- One rendered object member, `"key": value`. -/
def jsonMember (k : JStr) (vtext : JStr) : JStr :=
  '"' :: (jsonEscape k ++ '"' :: ':' :: ' ' :: vtext)

/-- The rendered members of a row (members with `undefined` values are
skipped, as `JSON.stringify` does). -/
def rowMembers (row : Row) : List JStr :=
  row.filterMap (fun kv => (stringifyScalar kv.2).map (fun t => jsonMember kv.1 t))

/-- Rendered members joined with `,` newline and the depth-2 indent. -/
def renderMembersList : List JStr → JStr
  | [] => []
  | [m] => m
  | m :: rest => m ++ ',' :: '\n' :: (indent4 ++ renderMembersList rest)

/-- One row as a pretty-printed JSON object at depth 1. -/
def renderRow (row : Row) : JStr :=
  match rowMembers row with
  | [] => ['{', '}']
  | ms => '{' :: '\n' :: (indent4 ++ renderMembersList ms ++ '\n' :: indent2 ++ ['}'])

/-- Rendered rows joined with `,` newline and the depth-1 indent. -/
def renderRowsList : List Row → JStr
  | [] => []
  | [r] => renderRow r
  | r :: rest => renderRow r ++ ',' :: '\n' :: (indent2 ++ renderRowsList rest)

/-- `formatAsJson(rows)`: `JSON.stringify(rows, null, 2)`. -/
def formatAsJson (rows : List Row) : JStr :=
  if rows.isEmpty then ['[', ']']
  else '[' :: '\n' :: (indent2 ++ renderRowsList rows ++ '\n' :: [']'])

/-- A value `JSON.stringify` emits literally and `JSON.parse` recovers by
value: null, booleans, integers and strings. -/
def JsValue.jsonSafeScalar : JsValue → Bool
  | .vnull => true
  | .vbool _ => true
  | .vint _ => true
  | .vstr _ => true
  | _ => false

/-- All values of a row are JSON-safe scalars. -/
def rowJsonSafe (row : Row) : Bool := row.all (fun kv => kv.2.jsonSafeScalar)

/-- All rows are JSON-safe. -/
def rowsJsonSafe (rows : List Row) : Bool := rows.all rowJsonSafe

/-! ## A generic JSON reader for the round-trip property

A recursive-descent parser for the JSON fragment `formatAsJson` emits:
an array of flat objects with scalar members. Whitespace is skipped
freely, so the reader does not depend on the pretty-printer's layout. -/

/-- JSON insignificant whitespace. -/
def jsonWS (c : Char) : Bool :=
  c = ' ' || c = '\t' || c = '\n' || c = '\r'

/-- Skip insignificant whitespace. -/
def skipWS (s : JStr) : JStr := s.dropWhile jsonWS

/-- Value of a hexadecimal digit. -/
def hexVal (c : Char) : Option Nat :=
  if '0' ≤ c && c ≤ '9' then some (c.toNat - 48)
  else if 'a' ≤ c && c ≤ 'f' then some (c.toNat - 87)
  else if 'A' ≤ c && c ≤ 'F' then some (c.toNat - 55)
  else none

/-- The character a one-letter escape stands for. -/
def unescapeChar (c : Char) : Option Char :=
  if c = '"' then some '"'
  else if c = '\\' then some '\\'
  else if c = '/' then some '/'
  else if c = 'b' then some '\x08'
  else if c = 'f' then some '\x0c'
  else if c = 'n' then some '\n'
  else if c = 'r' then some '\r'
  else if c = 't' then some '\t'
  else none

/-- Read a JSON string body up to the closing quote (the opening quote is
already consumed); yields the decoded characters and the rest. -/
def parseStringBody : JStr → Option (JStr × JStr)
  | [] => none
  | c :: rest =>
    if c = '"' then some ([], rest)
    else if c = '\\' then
      match rest with
      | [] => none
      | e :: rest2 =>
        if e = 'u' then
          match rest2 with
          | a :: b :: c2 :: d :: rest3 => do
            let va ← hexVal a
            let vb ← hexVal b
            let vc ← hexVal c2
            let vd ← hexVal d
            let code := ((va * 16 + vb) * 16 + vc) * 16 + vd
            if code.isValidChar then
              let (cs, r) ← parseStringBody rest3
              some (Char.ofNat code :: cs, r)
            else none
          | _ => none
        else do
          let ch ← unescapeChar e
          let (cs, r) ← parseStringBody rest2
          some (ch :: cs, r)
    else do
      let (cs, r) ← parseStringBody rest
      some (c :: cs, r)

/-- Value of a decimal digit. -/
def digitVal (c : Char) : Option Nat :=
  if '0' ≤ c && c ≤ '9' then some (c.toNat - 48) else none

/-- Accumulate leading decimal digits. -/
def parseNatAux : JStr → Nat → Nat × JStr
  | [], acc => (acc, [])
  | c :: rest, acc =>
    match digitVal c with
    | some d => parseNatAux rest (acc * 10 + d)
    | none => (acc, c :: rest)

/-- Read a nonnegative integer (at least one digit). -/
def parseNonneg (s : JStr) : Option (Nat × JStr) :=
  match s with
  | [] => none
  | c :: _ => if (digitVal c).isSome then some (parseNatAux s 0) else none

/-- Read a JSON integer. -/
def parseNumber (s : JStr) : Option (Int × JStr) :=
  match s with
  | [] => none
  | c :: rest =>
    if c = '-' then (parseNonneg rest).map (fun p => (-(p.1 : Int), p.2))
    else (parseNonneg (c :: rest)).map (fun p => ((p.1 : Int), p.2))

/-- Read one scalar JSON value. -/
def parseScalar (s : JStr) : Option (JsValue × JStr) :=
  match skipWS s with
  | [] => none
  | c :: rest =>
    if c = '"' then (parseStringBody rest).map (fun p => (.vstr p.1, p.2))
    else if c = 'n' then
      if ['u', 'l', 'l'].isPrefixOf rest then some (.vnull, rest.drop 3) else none
    else if c = 't' then
      if ['r', 'u', 'e'].isPrefixOf rest then some (.vbool true, rest.drop 3) else none
    else if c = 'f' then
      if ['a', 'l', 's', 'e'].isPrefixOf rest then some (.vbool false, rest.drop 4) else none
    else (parseNumber (c :: rest)).map (fun p => (.vint p.1, p.2))

/-- Read one `"key": value` member. -/
def parseMember (s : JStr) : Option ((JStr × JsValue) × JStr) :=
  match skipWS s with
  | [] => none
  | c :: rest =>
    if c = '"' then
      match parseStringBody rest with
      | none => none
      | some (k, r1) =>
        match skipWS r1 with
        | [] => none
        | c2 :: r2 =>
          if c2 = ':' then (parseScalar r2).map (fun p => ((k, p.1), p.2))
          else none
    else none

/-- Read the members of an object after its `\x7b`, ending at the matching
`\x7d`; `fuel` bounds the number of members. -/
def parseMembersAux : Nat → JStr → Row → Option (Row × JStr)
  | 0, _, _ => none
  | fuel + 1, s, acc =>
    match parseMember s with
    | none => none
    | some (kv, r) =>
      match skipWS r with
      | [] => none
      | c :: r2 =>
        if c = ',' then parseMembersAux fuel r2 (acc ++ [kv])
        else if c = '}' then some (acc ++ [kv], r2)
        else none

/-- Read one JSON object. -/
def parseObject (fuel : Nat) (s : JStr) : Option (Row × JStr) :=
  match skipWS s with
  | [] => none
  | c :: rest =>
    if c = '{' then
      match skipWS rest with
      | [] => none
      | c2 :: r2 =>
        if c2 = '}' then some ([], r2)
        else parseMembersAux fuel rest []
    else none

/-- Read the elements of the row array after its `[`, ending at `]`. -/
def parseRowsAux : Nat → JStr → List Row → Option (List Row × JStr)
  | 0, _, _ => none
  | fuel + 1, s, acc =>
    match parseObject fuel s with
    | none => none
    | some (row, r) =>
      match skipWS r with
      | [] => none
      | c :: r2 =>
        if c = ',' then parseRowsAux fuel r2 (acc ++ [row])
        else if c = ']' then some (acc ++ [row], r2)
        else none

/-- Claim vocabulary: `s` contains `phrase` in some casing. -/
def containsCI (s phrase : JStr) : Prop :=
  ∃ q, q <:+: s ∧ jsUpper q = jsUpper phrase

/-- Claim vocabulary: a phrase with no leading or trailing whitespace. -/
def edgesNonWS (p : JStr) : Bool :=
  (match p.head? with
   | some c => !isWS c
   | none => true) &&
    (match p.getLast? with
     | some c => !isWS c
     | none => true)

/-- Claim vocabulary: the statement matches a confirmation keyword — its
trimmed uppercased text either starts with the uppercased keyword (a raw
string prefix) or contains it with a single space on each side. -/
def confirmationMatches (s k : JStr) : Prop :=
  jsUpper k <+: jsUpper (jsTrim s) ∨
    (' ' :: (jsUpper k ++ [' '])) <:+: jsUpper (jsTrim s)

/-! ## executeQuery: the safety pipeline around physical execution

The drivers are modelled as oracles. `executeQuery` takes the current
profile-to-connection map and returns, besides the `QueryResult`, the new
map and the list of statements physically sent to the driver, so that
"no execution was attempted" and "no connection was created" are facts of
the model. -/

/-- The safety section of the configuration. -/
structure SafetyConfig where
  defaultLimit : Nat
  requireConfirmationFor : List JStr
  blacklistedOperations : List JStr

/-- The result record `executeQuery` returns (source `QueryResult`);
absent optional fields are `none`. -/
structure QueryResult where
  success : Bool
  result : Option JStr := none
  error : Option JStr := none
  requiresConfirmation : Option Bool := none
  message : Option JStr := none
deriving DecidableEq

/-- Output format selector. -/
inductive OutputFormat where
  | table
  | json
  | csv
  | toon
deriving DecidableEq

/-- What `connection.query` resolves to: a result set with field metadata,
an OK packet, or a driver error (a rejected promise). -/
inductive DriverReply where
  | rowsReply (rows : List Row) (fields : List JStr)
  | okReply (affectedRows : Nat) (insertId : Nat)
  | errorReply (message : JStr)

/-- The MySQL driver as an oracle: connection creation (which may fail)
and query execution on a connection, plus the external toon encoder. -/
structure MySQLEnv where
  connect : JStr → Except JStr Nat
  exec : Nat → JStr → DriverReply
  encode : List Row → JStr

/-- A profile-to-connection map (insertion-ordered, as a JS `Map`). -/
abbrev ConnPool := List (JStr × Nat)

/-- `getConnection(profileName)`: reuse the pooled connection, otherwise
create one and pool it. -/
def MySQLUtil.getConnection (env : MySQLEnv) (pool : ConnPool) (profileName : JStr) :
    Except JStr (Nat × ConnPool) :=
  match pool.find? (fun kv => kv.1 = profileName) with
  | some kv => .ok (kv.2, pool)
  | none =>
    match env.connect profileName with
    | .ok c => .ok (c, pool ++ [(profileName, c)])
    | .error e => .error e

/-- JS template interpolation of a possibly-undefined string. -/
def jsTemplate : Option JStr → JStr
  | some s => s
  | none => "undefined".data

/-- `[WARNING]` or `[INFO]`: `w.level.toUpperCase()`. -/
def warningLevelText (w : QueryWarning) : JStr :=
  if w.warningLevel then "WARNING".data else "INFO".data

/-- The query-analysis banner built from the advisories. -/
def warningsText (ws : List QueryWarning) : JStr :=
  if ws.isEmpty then []
  else
    "⚠️  Query Analysis:\n".data ++
      (List.intersperse ['\n'] (ws.map (fun w =>
        "  [".data ++ warningLevelText w ++ "] ".data ++ w.message ++
          "\n  → ".data ++ w.suggestion))).flatten ++
      "\n\n".data

/-- The notice appended when a default LIMIT was injected. -/
def appliedLimitNotice (n : Nat) : JStr :=
  "ℹ️  Applied default LIMIT ".data ++ natToChars n ++ "\n\n".data

/-- The error text of a blacklist rejection. -/
def blockedErrorText (reason : Option JStr) : JStr :=
  "ERROR: ".data ++ jsTemplate reason ++
    "\n\nThis operation is blocked by safety rules and cannot be executed.".data

/-- The message of a confirmation rejection. -/
def confirmationWarningText (message : Option JStr) (query : JStr) : JStr :=
  "WARNING: ".data ++ jsTemplate message ++ "\n\nQuery: ".data ++ query ++
    "\n\nThis is a destructive operation. Please confirm you want to proceed.".data

/-- Is the classification one whose reply is a result set? -/
def isResultKind (queryType : JStr) : Bool :=
  queryType = "SELECT".data || queryType = "SHOW".data ||
    queryType = "DESCRIBE".data || queryType = "EXPLAIN".data

/-- The result-set body of a successful MySQL execution. -/
def mysqlResultSetText (encode : List Row → JStr) (rows : List Row)
    (fields : List JStr) (format : OutputFormat) : JStr :=
  "Query executed successfully. Rows returned: ".data ++ natToChars rows.length ++
    "\n\n".data ++
    (match format with
     | .json => formatAsJson rows
     | .csv => formatAsCsv rows fields
     | .toon => formatAsToon encode rows
     | .table => formatAsTable rows fields)

/-- The body reported for a mutating statement. -/
def okPacketText (affectedRows : Nat) (insertId : Nat) : JStr :=
  "Query executed successfully.\nAffected rows: ".data ++ natToChars affectedRows ++
    ['\n'] ++
    (if insertId ≠ 0 then "Insert ID: ".data ++ natToChars insertId ++ ['\n'] else [])

/-- `MySQLUtil.executeQuery(profileName, query, format)`: blacklist check,
confirmation check, advisories, default-limit injection for SELECT, then
physical execution. Returns the result, the updated connection map and the
statements physically executed. The driver returns an array exactly for
result-set statements, so the mismatched cast branches of the source
(`Array.isArray(rows) ? ... : 0`) surface here as the unreachable default
match arms. -/
def MySQLUtil.executeQuery (env : MySQLEnv) (safety : SafetyConfig) (pool : ConnPool)
    (profileName query : JStr) (format : OutputFormat) :
    QueryResult × ConnPool × List JStr :=
  let blacklistCheck := checkBlacklist query safety.blacklistedOperations
  if blacklistCheck.allowed = false then
    ({ success := false, error := some (blockedErrorText blacklistCheck.reason) }, pool, [])
  else
    let confirmationCheck := requiresConfirmation query safety.requireConfirmationFor
    if confirmationCheck.required then
      ({ success := false, requiresConfirmation := some true,
         message := some (confirmationWarningText confirmationCheck.message query) },
       pool, [])
    else
      let warnings := analyzeQuery query
      let queryType := getQueryType query
      let finalQuery :=
        if queryType = "SELECT".data then applyDefaultLimit query safety.defaultLimit
        else query
      let warningText :=
        warningsText warnings ++
          (if queryType = "SELECT".data && finalQuery ≠ query then
            appliedLimitNotice safety.defaultLimit
          else [])
      match MySQLUtil.getConnection env pool profileName with
      | .error e => ({ success := false, error := some ("ERROR: ".data ++ e) }, pool, [])
      | .ok (conn, pool') =>
        match env.exec conn finalQuery with
        | .errorReply msg =>
          ({ success := false, error := some ("ERROR: ".data ++ msg) }, pool', [finalQuery])
        | reply =>
          if isResultKind queryType then
            let rows := match reply with | .rowsReply rows _ => rows | _ => []
            let fields := match reply with | .rowsReply _ fields => fields | _ => []
            ({ success := true,
               result := some (warningText ++ mysqlResultSetText env.encode rows fields format) },
             pool', [finalQuery])
          else
            let affectedRows := match reply with | .okReply a _ => a | _ => 0
            let insertId := match reply with | .okReply _ i => i | _ => 0
            ({ success := true,
               result := some (warningText ++ okPacketText affectedRows insertId) },
             pool', [finalQuery])

/-- What a PostgreSQL `client.query` resolves to: the result's `rows`,
`fields` and `rowCount`, or a driver error. -/
inductive PGReply where
  | okReply (rows : List Row) (fields : List JStr) (rowCount : Option Nat)
  | errorReply (message : JStr)

/-- The pg driver as an oracle: `new Pool(options)` (construction never
fails), `pool.connect()` (which may fail) and query execution. -/
structure PGEnv where
  newPool : JStr → Nat
  poolConnect : Nat → Except JStr Nat
  exec : Nat → JStr → PGReply
  encode : List Row → JStr

/-- `getPool(profileName)`: reuse the pooled pool, otherwise construct one
and pool it. -/
def PostgreSQLUtil.getPool (env : PGEnv) (pool : ConnPool) (profileName : JStr) :
    Nat × ConnPool :=
  match pool.find? (fun kv => kv.1 = profileName) with
  | some kv => (kv.2, pool)
  | none =>
    let p := env.newPool profileName
    (p, pool ++ [(profileName, p)])

/-- The result-set body of a successful PostgreSQL execution. -/
def pgResultSetText (encode : List Row → JStr) (rows : List Row)
    (fields : List JStr) (format : OutputFormat) : JStr :=
  "Query executed successfully. Rows returned: ".data ++ natToChars rows.length ++
    "\n\n".data ++
    (match format with
     | .json => formatAsJson rows
     | .csv => formatAsCsv rows fields
     | .toon => formatAsToon encode rows
     | .table => formatAsTable rows fields)

/-- `PostgreSQLUtil.executeQuery(profileName, query, format)`: the same
pipeline over the pg driver; mutating statements report
`result.rowCount ?? 0` and no insert id. -/
def PostgreSQLUtil.executeQuery (env : PGEnv) (safety : SafetyConfig) (pool : ConnPool)
    (profileName query : JStr) (format : OutputFormat) :
    QueryResult × ConnPool × List JStr :=
  let blacklistCheck := checkBlacklist query safety.blacklistedOperations
  if blacklistCheck.allowed = false then
    ({ success := false, error := some (blockedErrorText blacklistCheck.reason) }, pool, [])
  else
    let confirmationCheck := requiresConfirmation query safety.requireConfirmationFor
    if confirmationCheck.required then
      ({ success := false, requiresConfirmation := some true,
         message := some (confirmationWarningText confirmationCheck.message query) },
       pool, [])
    else
      let warnings := analyzeQuery query
      let queryType := getQueryType query
      let finalQuery :=
        if queryType = "SELECT".data then applyDefaultLimit query safety.defaultLimit
        else query
      let warningText :=
        warningsText warnings ++
          (if queryType = "SELECT".data && finalQuery ≠ query then
            appliedLimitNotice safety.defaultLimit
          else [])
      let (pgPool, pool') := PostgreSQLUtil.getPool env pool profileName
      match env.poolConnect pgPool with
      | .error e => ({ success := false, error := some ("ERROR: ".data ++ e) }, pool', [])
      | .ok client =>
        match env.exec client finalQuery with
        | .errorReply msg =>
          ({ success := false, error := some ("ERROR: ".data ++ msg) }, pool', [finalQuery])
        | .okReply rows fields rowCount =>
          if isResultKind queryType then
            ({ success := true,
               result := some (warningText ++ pgResultSetText env.encode rows fields format) },
             pool', [finalQuery])
          else
            ({ success := true,
               result := some (warningText ++
                 ("Query executed successfully.\nAffected rows: ".data ++
                   natToChars (rowCount.getD 0) ++ ['\n'])) },
             pool', [finalQuery])

/-! ## closeAll: adapter teardown and the factory registry -/

/-- The world of driver objects: which connections and pools have had
their `end()` run. -/
structure World where
  closedConns : List Nat
  closedPools : List Nat
deriving DecidableEq

/-- The loop `for (const connection of this.connectionPool.values())
await connection.end()`. -/
def endConnsLoop : List Nat → List Nat → List Nat
  | [], closed => closed
  | c :: cs, closed => endConnsLoop cs (closed ++ [c])

/-- `MySQLUtil.closeAll()`: end every pooled connection, then clear the
profile-to-connection map. -/
def MySQLUtil.closeAll (pool : ConnPool) (w : World) : ConnPool × World :=
  ([], { w with closedConns := endConnsLoop (pool.map Prod.snd) w.closedConns })

/-- `PostgreSQLUtil.closeAll()`: end every pooled pool, then clear the
profile-to-pool map. -/
def PostgreSQLUtil.closeAll (pool : ConnPool) (w : World) : ConnPool × World :=
  ([], { w with closedPools := endConnsLoop (pool.map Prod.snd) w.closedPools })

/-- The factory's lazily-created utilities: at most one MySQL utility and
one PostgreSQL utility, each owning its connection map. -/
structure FactoryState where
  mysql : Option ConnPool
  postgresql : Option ConnPool
deriving DecidableEq

/-- `DatabaseFactory.closeAll()`: close and null each utility that exists. -/
def DatabaseFactory.closeAll (st : FactoryState) (w : World) : FactoryState × World :=
  let mw :=
    match st.mysql with
    | some pool => ((none : Option ConnPool), (MySQLUtil.closeAll pool w).2)
    | none => (none, w)
  let pw :=
    match st.postgresql with
    | some pool => ((none : Option ConnPool), (PostgreSQLUtil.closeAll pool mw.2).2)
    | none => (none, mw.2)
  ({ mysql := mw.1, postgresql := pw.1 }, pw.2)

/-- Parse a complete JSON document of the emitted shape: an array of flat
objects, with nothing but whitespace after it. -/
def parseJson (s : JStr) : Option (List Row) :=
  match skipWS s with
  | [] => none
  | c :: rest =>
    if c = '[' then
      match skipWS rest with
      | [] => none
      | c2 :: r2 =>
        if c2 = ']' then if skipWS r2 = [] then some [] else none
        else
          match parseRowsAux s.length rest [] with
          | none => none
          | some (rows, r) => if skipWS r = [] then some rows else none
    else none

/-- Claim vocabulary (C10): replace every NULL/undefined cell value of a
row by the empty string. -/
def nullsAsEmpty (row : Row) : Row :=
  row.map (fun kv => if kv.2.isNullish then (kv.1, JsValue.vstr []) else kv)

/-! # Theorems

## String machinery: whitespace, uppercasing, substrings and trimming -/

theorem toNat_ofNat_of_valid {n : Nat} (h : n.isValidChar) : (Char.ofNat n).toNat = n := by
  simp [Char.ofNat, h, Char.ofNatAux, Char.toNat, UInt32.toNat]

theorem isWS_eq_false_of_toNat {x : Char} (h : 33 ≤ x.toNat) : isWS x = false := by
  have h1 : x ≠ ' ' := fun e => absurd h (by subst e; decide)
  have h2 : x ≠ '\t' := fun e => absurd h (by subst e; decide)
  have h3 : x ≠ '\n' := fun e => absurd h (by subst e; decide)
  have h4 : x ≠ '\r' := fun e => absurd h (by subst e; decide)
  simp [isWS, h1, h2, h3, h4]

theorem isWS_upperChar (c : Char) : isWS (upperChar c) = isWS c := by
  unfold upperChar
  by_cases h : ('a' ≤ c && c ≤ 'z') = true
  · rw [if_pos h]
    obtain ⟨hl, hr⟩ := Bool.and_eq_true_iff.mp h
    have h1 : 97 ≤ c.toNat := Char.le_def.mp (of_decide_eq_true hl)
    have h2 : c.toNat ≤ 122 := Char.le_def.mp (of_decide_eq_true hr)
    have hv : (c.toNat - 32).isValidChar := Or.inl (by omega)
    have ht : (Char.ofNat (c.toNat - 32)).toNat = c.toNat - 32 := toNat_ofNat_of_valid hv
    rw [isWS_eq_false_of_toNat (by omega), isWS_eq_false_of_toNat (by omega)]
  · rw [if_neg h]

theorem jsIncludes_iff {hay needle : JStr} : jsIncludes hay needle = true ↔ needle <:+: hay := by
  induction hay with
  | nil => simp [jsIncludes, List.isEmpty_iff, List.infix_nil]
  | cons a t ih =>
    simp only [jsIncludes, Bool.or_eq_true, List.infix_cons_iff, ih,
       List.isPrefixOf_iff_prefix]

theorem infix_map_mono {α β : Type} {p s : List α} (f : α → β) (h : p <:+: s) :
    p.map f <:+: s.map f := by
  obtain ⟨u, v, huv⟩ := h
  exact ⟨u.map f, v.map f, by rw [← huv]; simp⟩

theorem exists_preimage_of_infix_map {α β : Type} {p : List β} {s : List α} {f : α → β}
    (h : p <:+: s.map f) : ∃ q, q <:+: s ∧ q.map f = p := by
  obtain ⟨u, v, huv⟩ := h
  rw [List.append_assoc] at huv
  obtain ⟨l₁, l₂, hs, hl₁, hl₂⟩ := List.append_eq_map_iff.mp huv
  obtain ⟨m, r, hmr, hm, hr⟩ := List.append_eq_map_iff.mp hl₂.symm
  exact ⟨m, ⟨l₁, r, by rw [hs, hmr, List.append_assoc]⟩, hm⟩

theorem infix_dropWhile_isWS {p s : JStr} (h : p <:+: s)
    (hh : ∀ c, p.head? = some c → isWS c = false) : p <:+: s.dropWhile isWS := by
  induction s with
  | nil => simpa using h
  | cons a t ih =>
    by_cases ha : isWS a = true
    · rw [List.dropWhile_cons, if_pos ha]
      rcases List.infix_cons_iff.mp h with hp | hi
      · match p, hp with
        | [], _ => exact List.nil_infix
        | b :: p', hp =>
          obtain ⟨r, hr⟩ := hp
          have hb : b = a := by simpa using congrArg List.head? hr
          exact absurd (hh b rfl) (by rw [hb, ha]; simp)
      · exact ih hi
    · rw [List.dropWhile_cons, if_neg ha]
      exact h

theorem edgesNonWS_head {p : JStr} (he : edgesNonWS p = true) :
    ∀ c, p.head? = some c → isWS c = false := by
  intro c hc
  unfold edgesNonWS at he
  rw [hc] at he
  simpa using (Bool.and_eq_true_iff.mp he).1

theorem edgesNonWS_last {p : JStr} (he : edgesNonWS p = true) :
    ∀ c, p.getLast? = some c → isWS c = false := by
  intro c hc
  unfold edgesNonWS at he
  rw [hc] at he
  simpa using (Bool.and_eq_true_iff.mp he).2

theorem infix_jsTrim {p s : JStr} (h : p <:+: s) (he : edgesNonWS p = true) :
    p <:+: jsTrim s := by
  have h1 : p <:+: s.dropWhile isWS := infix_dropWhile_isWS h (edgesNonWS_head he)
  have h2 : p.reverse <:+: (s.dropWhile isWS).reverse := List.reverse_infix.mpr h1
  have h3 : p.reverse <:+: ((s.dropWhile isWS).reverse).dropWhile isWS := by
    refine infix_dropWhile_isWS h2 ?_
    intro c hc
    rw [List.head?_reverse] at hc
    exact edgesNonWS_last he c hc
  unfold jsTrim
  have := List.reverse_infix.mpr h3
  simpa using this

theorem edgesNonWS_of_upper_eq {p q : JStr} (he : edgesNonWS p = true)
    (hq : jsUpper q = jsUpper p) : edgesNonWS q = true := by
  have hhead : ∀ c, q.head? = some c → isWS c = false := by
    intro c hc
    have hh : (jsUpper q).head? = (jsUpper p).head? := by rw [hq]
    rw [jsUpper, jsUpper, List.head?_map, List.head?_map, hc] at hh
    match p, hh with
    | d :: p', hh =>
      have hd : upperChar c = upperChar d := by simpa using hh
      have := edgesNonWS_head he d rfl
      rw [← isWS_upperChar c, hd, isWS_upperChar d]
      exact this
  have hlast : ∀ c, q.getLast? = some c → isWS c = false := by
    intro c hc
    have hh : (jsUpper q).getLast? = (jsUpper p).getLast? := by rw [hq]
    rw [jsUpper, jsUpper, ← List.head?_reverse, ← List.head?_reverse,
      ← List.map_reverse, ← List.map_reverse, List.head?_map, List.head?_map,
      List.head?_reverse, List.head?_reverse, hc] at hh
    match hp : p.getLast?, hh with
    | some d, hh =>
      have hd : upperChar c = upperChar d := by simpa using hh
      have := edgesNonWS_last he d hp
      rw [← isWS_upperChar c, hd, isWS_upperChar d]
      exact this
  unfold edgesNonWS
  match hq1 : q.head?, hq2 : q.getLast? with
  | some a, some b => simp [hhead a hq1, hlast b hq2]
  | some a, none => simp [hhead a hq1]
  | none, some b => simp [hlast b hq2]
  | none, none => simp

theorem upper_infix_of_containsCI {s p : JStr} (he : edgesNonWS p = true)
    (hc : containsCI s p) : jsUpper p <:+: jsUpper (jsTrim s) := by
  obtain ⟨q, hq, hqu⟩ := hc
  have heq : edgesNonWS q := edgesNonWS_of_upper_eq he hqu
  have h1 : q <:+: jsTrim s := infix_jsTrim hq heq
  have h2 := infix_map_mono upperChar h1
  rw [← hqu]
  exact h2

theorem containsCI_of_upper_infix {p t : JStr} (h : jsUpper p <:+: jsUpper t) :
    ∃ q, q <:+: t ∧ jsUpper q = jsUpper p := by
  obtain ⟨q, hq, hm⟩ := exists_preimage_of_infix_map h
  exact ⟨q, hq, hm⟩

theorem containsCI_iff_includes {t p : JStr} :
    containsCI t p ↔ jsIncludes (jsUpper t) (jsUpper p) = true := by
  constructor
  · rintro ⟨q, hq, hu⟩
    exact jsIncludes_iff.mpr (hu ▸ infix_map_mono upperChar hq)
  · intro h
    exact containsCI_of_upper_infix (jsIncludes_iff.mp h)

theorem jsTrim_infix_self (s : JStr) : jsTrim s <:+: s := by
  have h1 : (s.dropWhile isWS).reverse.dropWhile isWS <:+ (s.dropWhile isWS).reverse :=
    List.dropWhile_suffix isWS
  have h2 : jsTrim s <+: s.dropWhile isWS := by
    rw [← List.reverse_suffix]
    simpa [jsTrim] using h1
  obtain ⟨r, hr⟩ := h2
  have hsuff : s.dropWhile isWS <:+ s := List.dropWhile_suffix isWS
  obtain ⟨u, hu⟩ := hsuff
  exact ⟨u, r, by rw [List.append_assoc, hr, hu]⟩

theorem containsCI_of_trim {s p : JStr} (h : containsCI (jsTrim s) p) : containsCI s p := by
  obtain ⟨q, hq, hu⟩ := h
  exact ⟨q, hq.trans (jsTrim_infix_self s), hu⟩

/-! ## The blacklist and confirmation loops -/

theorem checkBlacklistAux_match {nq : JStr} {bl : List JStr} {p : JStr}
    (hp : p ∈ bl) (h : jsIncludes nq (jsUpper p) = true) :
    (checkBlacklistAux nq bl).allowed = false := by
  induction bl with
  | nil => cases hp
  | cons b rest ih =>
    unfold checkBlacklistAux
    by_cases hb : jsIncludes nq (jsUpper b) = true
    · simp [hb]
    · rcases List.mem_cons.mp hp with hpb | hpr
      · exact absurd (hpb ▸ h) hb
      · simpa [hb] using ih hpr

theorem checkBlacklistAux_no_match {nq : JStr} {bl : List JStr}
    (h : ∀ q ∈ bl, jsIncludes nq (jsUpper q) = false) :
    checkBlacklistAux nq bl = { allowed := true, reason := none } := by
  induction bl with
  | nil => rfl
  | cons b rest ih =>
    unfold checkBlacklistAux
    rw [h b (List.mem_cons_self b rest)]
    simpa using ih (fun q hq => h q (List.mem_cons_of_mem b hq))

theorem checkBlacklistAux_first {nq : JStr} {bl1 bl2 : List JStr} {p : JStr}
    (h1 : ∀ q ∈ bl1, jsIncludes nq (jsUpper q) = false)
    (hp : jsIncludes nq (jsUpper p) = true) :
    checkBlacklistAux nq (bl1 ++ p :: bl2) =
      { allowed := false, reason := some (blacklistReason p) } := by
  induction bl1 with
  | nil => simp [checkBlacklistAux, hp]
  | cons b rest ih =>
    unfold checkBlacklistAux
    rw [List.cons_append]
    simp only [h1 b (List.mem_cons_self b rest), Bool.false_eq_true, if_false]
    exact ih (fun q hq => h1 q (List.mem_cons_of_mem b hq))

theorem requiresConfirmationAux_match {nq : JStr} {ops : List JStr} {k : JStr}
    (hk : k ∈ ops) (h : confirmationHit nq k = true) :
    (requiresConfirmationAux nq ops).required = true := by
  induction ops with
  | nil => cases hk
  | cons b rest ih =>
    unfold requiresConfirmationAux
    by_cases hb : confirmationHit nq b = true
    · simp [hb]
    · rcases List.mem_cons.mp hk with hkb | hkr
      · exact absurd (hkb ▸ h) hb
      · simpa [hb] using ih hkr

theorem requiresConfirmationAux_no_match {nq : JStr} {ops : List JStr}
    (h : ∀ op ∈ ops, confirmationHit nq op = false) :
    requiresConfirmationAux nq ops = { required := false, message := none } := by
  induction ops with
  | nil => rfl
  | cons b rest ih =>
    unfold requiresConfirmationAux
    rw [h b (List.mem_cons_self b rest)]
    simpa using ih (fun op hop => h op (List.mem_cons_of_mem b hop))

theorem requiresConfirmationAux_first {nq : JStr} {ops1 ops2 : List JStr} {k : JStr}
    (h1 : ∀ op ∈ ops1, confirmationHit nq op = false)
    (hk : confirmationHit nq k = true) :
    requiresConfirmationAux nq (ops1 ++ k :: ops2) =
      { required := true, message := some (confirmationMessage k) } := by
  induction ops1 with
  | nil => simp [requiresConfirmationAux, hk]
  | cons b rest ih =>
    unfold requiresConfirmationAux
    rw [List.cons_append]
    simp only [h1 b (List.mem_cons_self b rest), Bool.false_eq_true, if_false]
    exact ih (fun op hop => h1 op (List.mem_cons_of_mem b hop))

theorem confirmationMatches_iff_hit {s k : JStr} :
    confirmationMatches s k ↔ confirmationHit (jsUpper (jsTrim s)) k = true := by
  unfold confirmationMatches confirmationHit
  rw [Bool.or_eq_true,  List.isPrefixOf_iff_prefix, jsIncludes_iff]

theorem upperChar_space : upperChar ' ' = ' ' := by decide

theorem jsUpper_space_bounded (q : JStr) :
    jsUpper (' ' :: (q ++ [' '])) = ' ' :: (jsUpper q ++ [' ']) := by
  simp [jsUpper, upperChar_space]

theorem jsIncludes_eq_false {hay needle : JStr} :
    jsIncludes hay needle = false ↔ ¬ needle <:+: hay := by
  simp [← jsIncludes_iff]

theorem missingWhereCond_iff {nq : JStr} : missingWhereCond nq = true ↔
    (("UPDATE".data <+: nq) ∨ ("DELETE".data <+: nq)) ∧ ¬ ("WHERE".data <:+: nq) := by
  unfold missingWhereCond
  simp [ List.isPrefixOf_iff_prefix, jsIncludes_iff, jsIncludes_eq_false]

theorem selectStarCond_iff {nq : JStr} : selectStarCond nq = true ↔
    "SELECT *".data <:+: nq := by
  unfold selectStarCond
  simp [jsIncludes_iff]

theorem noLimitCond_iff {nq : JStr} : noLimitCond nq = true ↔
    ("SELECT".data <+: nq) ∧ ¬ ("LIMIT".data <:+: nq) := by
  unfold noLimitCond
  simp [ List.isPrefixOf_iff_prefix, jsIncludes_iff, jsIncludes_eq_false]

/-! ## Claims C1, C3, C4, C6: the safety-gate functions -/

/-- C3, counterexample to the claim as stated: the statement
`\x20DROP T` contains the blacklisted phrase `\x20DROP` (which carries a
leading space) verbatim, yet `checkBlacklist` reports it allowed, because
the statement is trimmed before the substring match. -/
theorem claim_C3_counterexample :
    containsCI " DROP T".data " DROP".data ∧
      (checkBlacklist " DROP T".data [" DROP".data]).allowed = true :=
  ⟨⟨" DROP".data, ⟨[], " T".data, by decide⟩, rfl⟩, by decide⟩

/-- C3 (amended): for a blacklisted phrase with no leading or trailing
whitespace, any statement containing it in any casing is rejected with a
reason naming the first matching phrase; a statement whose trimmed text
contains no blacklisted phrase in any casing is allowed. -/
theorem claim_C3 :
    (∀ (blacklist : List JStr) (p s : JStr),
        p ∈ blacklist → edgesNonWS p = true → containsCI s p →
        (checkBlacklist s blacklist).allowed = false) ∧
    (∀ (blacklist : List JStr) (s : JStr),
        (∀ p ∈ blacklist, ¬ containsCI (jsTrim s) p) →
        checkBlacklist s blacklist = { allowed := true, reason := none }) ∧
    (∀ (bl1 bl2 : List JStr) (p s : JStr),
        (∀ q ∈ bl1, ¬ containsCI (jsTrim s) q) → containsCI (jsTrim s) p →
        checkBlacklist s (bl1 ++ p :: bl2) =
          { allowed := false, reason := some (blacklistReason p) }) := by
  refine ⟨?_, ?_, ?_⟩
  · intro blacklist p s hp he hc
    exact checkBlacklistAux_match hp
      (jsIncludes_iff.mpr (upper_infix_of_containsCI he hc))
  · intro blacklist s h
    refine checkBlacklistAux_no_match ?_
    intro q hq
    rw [Bool.eq_false_iff]
    intro hinc
    exact h q hq (containsCI_iff_includes.mpr hinc)
  · intro bl1 bl2 p s h1 hp
    refine checkBlacklistAux_first ?_ (containsCI_iff_includes.mp hp)
    intro q hq
    rw [Bool.eq_false_iff]
    intro hinc
    exact h1 q hq (containsCI_iff_includes.mpr hinc)

/-- C1, counterexample to the claim as stated: with keyword `DROP`, the
statement `DROPX TABLE` contains `DROP` only inside the longer identifier
`DROPX` — no occurrence is a standalone space-bounded word or a whole
leading token — yet `requiresConfirmation` reports it as requiring
confirmation, because `startsWith` is a raw string-prefix check. -/
theorem claim_C1_counterexample :
    jsIncludes (jsUpper (jsTrim "DROPX TABLE".data)) (jsUpper "DROP".data) = true ∧
    (∀ i : Nat, i ≤ ("DROPX TABLE".data).length →
      ((jsUpper (jsTrim "DROPX TABLE".data)).drop i).take 4 = jsUpper "DROP".data →
      ¬ ((i = 0 ∨ (jsUpper (jsTrim "DROPX TABLE".data))[i - 1]? = some ' ') ∧
          ((jsUpper (jsTrim "DROPX TABLE".data))[i + 4]? = some ' ' ∨
            i + 4 = (jsTrim "DROPX TABLE".data).length))) ∧
    (requiresConfirmation "DROPX TABLE".data ["DROP".data]).required = true := by
  decide

/-- C1 (amended): `requiresConfirmation` reports `required = true` exactly
when some keyword, uppercased, is a raw string prefix of the trimmed
uppercased statement (so a keyword that is a proper prefix of the leading
identifier also triggers) or occurs in it with a single space on each
side; the first matching keyword wins and the message names it; a
space-bounded occurrence of the keyword in any casing inside the trimmed
statement does trigger it. -/
theorem claim_C1 :
    (∀ (s : JStr) (ops1 ops2 : List JStr) (k : JStr),
        (∀ op ∈ ops1, ¬ confirmationMatches s op) → confirmationMatches s k →
        requiresConfirmation s (ops1 ++ k :: ops2) =
          { required := true, message := some (confirmationMessage k) }) ∧
    (∀ (s : JStr) (ops : List JStr),
        (∀ op ∈ ops, ¬ confirmationMatches s op) →
        requiresConfirmation s ops = { required := false, message := none }) ∧
    (∀ (s k q : JStr) (ops : List JStr),
        k ∈ ops → jsUpper q = jsUpper k → (' ' :: (q ++ [' '])) <:+: jsTrim s →
        (requiresConfirmation s ops).required = true) := by
  refine ⟨?_, ?_, ?_⟩
  · intro s ops1 ops2 k h1 hk
    refine requiresConfirmationAux_first ?_ (confirmationMatches_iff_hit.mp hk)
    intro op hop
    rw [Bool.eq_false_iff]
    intro hhit
    exact h1 op hop (confirmationMatches_iff_hit.mpr hhit)
  · intro s ops h
    refine requiresConfirmationAux_no_match ?_
    intro op hop
    rw [Bool.eq_false_iff]
    intro hhit
    exact h op hop (confirmationMatches_iff_hit.mpr hhit)
  · intro s k q ops hk hqu hocc
    have h1 := infix_map_mono upperChar hocc
    rw [show (List.map upperChar (' ' :: (q ++ [' ']))) = ' ' :: (jsUpper q ++ [' ']) from
      jsUpper_space_bounded q, hqu] at h1
    refine requiresConfirmationAux_match hk ?_
    unfold confirmationHit
    rw [Bool.or_eq_true, jsIncludes_iff]
    exact Or.inr h1

/-- C4, counterexample to the claim as stated: `SELECTX` is not a SELECT
statement (its classification is UNKNOWN), yet `applyDefaultLimit` appends
a LIMIT clause to it, because the check is a raw string-prefix test. -/
theorem claim_C4_counterexample :
    getQueryType "SELECTX".data ≠ "SELECT".data ∧
      applyDefaultLimit "SELECTX".data 7 ≠ "SELECTX".data := by
  decide

/-- C4 (amended): `applyDefaultLimit("SELECT * FROM t", 100)` appends
` LIMIT 100`; any statement containing a LIMIT token in any casing is
returned unchanged; any statement whose trimmed uppercased text does not
start with the string `SELECT` is returned unchanged (a statement whose
first token merely begins with SELECT, such as `SELECTX`, still gets the
limit appended); and a statement that does start with `SELECT` and has no
LIMIT becomes its trimmed text followed by ` LIMIT n`. -/
theorem claim_C4 :
    (applyDefaultLimit "SELECT * FROM t".data 100 = "SELECT * FROM t LIMIT 100".data) ∧
    (∀ (s : JStr) (n : Nat), containsCI s "LIMIT".data → applyDefaultLimit s n = s) ∧
    (∀ (s : JStr) (n : Nat), ¬ ("SELECT".data <+: jsUpper (jsTrim s)) →
        applyDefaultLimit s n = s) ∧
    (∀ (s : JStr) (n : Nat), ("SELECT".data <+: jsUpper (jsTrim s)) →
        ¬ containsCI s "LIMIT".data →
        applyDefaultLimit s n = jsTrim s ++ " LIMIT ".data ++ natToChars n) := by
  refine ⟨by decide, ?_, ?_, ?_⟩
  · intro s n hc
    have h1 : jsUpper "LIMIT".data <:+: jsUpper (jsTrim s) :=
      upper_infix_of_containsCI (by decide) hc
    have h2 : jsIncludes (jsUpper (jsTrim s)) "LIMIT".data = true := by
      rw [show "LIMIT".data = jsUpper "LIMIT".data from by decide]
      exact jsIncludes_iff.mpr h1
    simp [applyDefaultLimit, h2]
  · intro s n h
    have h1 : "SELECT".data.isPrefixOf (jsUpper (jsTrim s)) = false := by
      rw [Bool.eq_false_iff]
      intro hc
      exact h ( List.isPrefixOf_iff_prefix.mp hc)
    simp [applyDefaultLimit, h1]
  · intro s n hp hnc
    have h1 : "SELECT".data.isPrefixOf (jsUpper (jsTrim s)) = true :=
       List.isPrefixOf_iff_prefix.mpr hp
    have h2 : jsIncludes (jsUpper (jsTrim s)) "LIMIT".data = false := by
      rw [Bool.eq_false_iff]
      intro hinc
      refine hnc (containsCI_of_trim ?_)
      refine containsCI_iff_includes.mpr ?_
      rw [show jsUpper "LIMIT".data = "LIMIT".data from by decide]
      exact hinc
    simp [applyDefaultLimit, h1, h2]

/-- C6: `analyzeQuery` returns a subsequence of the three advisories in
the fixed order missing-WHERE, SELECT-star, missing-LIMIT; the
missing-WHERE warning fires exactly when the trimmed uppercased statement
starts with UPDATE or DELETE and contains no WHERE; the other two fire
exactly on their documented conditions; every returned advisory carries a
nonempty suggestion. -/
theorem claim_C6 : ∀ s : JStr,
    (analyzeQuery s).Sublist [warnMissingWhere, warnSelectStar, warnNoLimit] ∧
    (warnMissingWhere ∈ analyzeQuery s ↔
      (("UPDATE".data <+: jsUpper (jsTrim s)) ∨ ("DELETE".data <+: jsUpper (jsTrim s))) ∧
        ¬ ("WHERE".data <:+: jsUpper (jsTrim s))) ∧
    (warnSelectStar ∈ analyzeQuery s ↔ "SELECT *".data <:+: jsUpper (jsTrim s)) ∧
    (warnNoLimit ∈ analyzeQuery s ↔
      ("SELECT".data <+: jsUpper (jsTrim s)) ∧ ¬ ("LIMIT".data <:+: jsUpper (jsTrim s))) ∧
    (∀ w ∈ analyzeQuery s, w.suggestion ≠ []) := by
  intro s
  have d12 : warnMissingWhere ≠ warnSelectStar := by decide
  have d13 : warnMissingWhere ≠ warnNoLimit := by decide
  have d23 : warnSelectStar ≠ warnNoLimit := by decide
  have d21 : warnSelectStar ≠ warnMissingWhere := by decide
  have d31 : warnNoLimit ≠ warnMissingWhere := by decide
  have d32 : warnNoLimit ≠ warnSelectStar := by decide
  have s1 : warnMissingWhere.suggestion ≠ [] := by decide
  have s2 : warnSelectStar.suggestion ≠ [] := by decide
  have s3 : warnNoLimit.suggestion ≠ [] := by decide
  unfold analyzeQuery
  rw [← missingWhereCond_iff, ← selectStarCond_iff, ← noLimitCond_iff]
  by_cases h1 : missingWhereCond (jsUpper (jsTrim s)) = true <;>
    by_cases h2 : selectStarCond (jsUpper (jsTrim s)) = true <;>
      by_cases h3 : noLimitCond (jsUpper (jsTrim s)) = true <;>
        simp_all

/-! ## Claims C5, C7, C10: the formatters -/

/-- C5: `formatAsToon` renders the empty row list as the empty string and
otherwise hands the encoder each row with keys kept in order, every valid
Date replaced by its ISO string, every invalid Date by null, every Buffer
by its base64 string, and every other value passed through unchanged. -/
theorem claim_C5 :
    (∀ encode : List Row → JStr, formatAsToon encode [] = []) ∧
    (∀ (encode : List Row → JStr) (rows : List Row), rows ≠ [] →
        formatAsToon encode rows = encode (rows.map toonSerializeRow)) ∧
    (∀ row : Row, (toonSerializeRow row).map Prod.fst = row.map Prod.fst) ∧
    (∀ iso display : JStr, toonSerializeValue (.vdate true iso display) = .vstr iso) ∧
    (∀ iso display : JStr, toonSerializeValue (.vdate false iso display) = .vnull) ∧
    (∀ (bytes : List Nat) (b64 display : JStr),
        toonSerializeValue (.vbuffer bytes b64 display) = .vstr b64) ∧
    (∀ v : JsValue, (∀ valid iso display, v ≠ .vdate valid iso display) →
        (∀ bytes b64 display, v ≠ .vbuffer bytes b64 display) →
        toonSerializeValue v = v) := by
  refine ⟨fun encode => rfl, ?_, ?_, fun iso display => rfl, fun iso display => rfl,
    fun bytes b64 display => rfl, ?_⟩
  · intro encode rows h
    rw [formatAsToon, if_neg (by simpa [List.isEmpty_iff] using h)]
  · intro row
    simp [toonSerializeRow]
  · intro v hdate hbuffer
    match v with
    | .vnull => rfl
    | .vundefined => rfl
    | .vbool b => rfl
    | .vint n => rfl
    | .vstr s => rfl
    | .vdate valid iso display => exact absurd rfl (hdate valid iso display)
    | .vbuffer bytes b64 display => exact absurd rfl (hbuffer bytes b64 display)

/-- C5 witness: the serialization facts at concrete inputs. -/
theorem claim_C5_witness :
    formatAsToon (fun rows => natToChars rows.length) [[(['a'], .vdate true ['i'] ['d'])]] =
      natToChars 1 :=
  (claim_C5.2.1 (fun rows => natToChars rows.length)
    [[(['a'], .vdate true ['i'] ['d'])]] (by decide)).trans rfl

/-- C7: `formatAsCsv` renders the empty row list as the empty string with
no header; otherwise it emits the comma-joined header line and one
comma-joined line per row, where a cell is quote-wrapped with internal
quotes doubled exactly when it contains a comma, quote or newline and is
emitted verbatim otherwise; the cell `Doe, "Johnny"` renders as
`"Doe, ""Johnny"""`. -/
theorem claim_C7 :
    (∀ columnNames : List JStr, formatAsCsv [] columnNames = []) ∧
    (∀ (rows : List Row) (columnNames : List JStr), rows ≠ [] →
        formatAsCsv rows columnNames =
          (List.intersperse [','] columnNames).flatten ++ ['\n'] ++
            (rows.map (fun row => csvLine columnNames row ++ ['\n'])).flatten) ∧
    (∀ (columnNames : List JStr) (row : Row),
        csvLine columnNames row =
          (List.intersperse [','] (columnNames.map (fun name =>
            csvEscape (csvCellString row name)))).flatten) ∧
    (∀ s : JStr, (s.contains ',' = true ∨ s.contains '"' = true ∨ s.contains '\n' = true) →
        csvEscape s = '"' :: (doubleQuotes s ++ ['"'])) ∧
    (∀ s : JStr, s.contains ',' = false → s.contains '"' = false → s.contains '\n' = false →
        csvEscape s = s) ∧
    (csvEscape "Doe, \"Johnny\"".data = "\"Doe, \"\"Johnny\"\"\"".data) ∧
    (formatAsCsv [[("id".data, .vint 1), ("name".data, .vstr "Doe, \"Johnny\"".data)]]
        ["id".data, "name".data] =
      "id,name\n1,\"Doe, \"\"Johnny\"\"\"\n".data) := by
  refine ⟨fun columnNames => rfl, ?_, fun columnNames row => rfl, ?_, ?_, by decide, by decide⟩
  · intro rows columnNames h
    rw [formatAsCsv, if_neg (by simpa [List.isEmpty_iff] using h)]
  · intro s h
    rw [csvEscape, if_pos]
    rcases h with h | h | h <;> simp [List.elem_iff] at h <;> simp [h]
  · intro s h1 h2 h3
    rw [csvEscape, if_neg]
    simp [List.elem_iff] at h1 h2 h3
    simp [h1, h2, h3]

theorem coalesce_getField_nullsAsEmpty (row : Row) (name : JStr) :
    nullishCoalesce (getField (nullsAsEmpty row) name) (JsValue.vstr []) =
      nullishCoalesce (getField row name) (JsValue.vstr []) := by
  induction row with
  | nil => rfl
  | cons kv rest ih =>
    by_cases hk : (kv.1 = name)
    · rw [nullsAsEmpty, List.map_cons, getField,
        List.find?_cons_of_pos _ (by by_cases hnull : kv.2.isNullish = true <;> simp [hnull, hk]),
        getField, List.find?_cons_of_pos _ (by simp [hk])]
      by_cases hnull : kv.2.isNullish = true
      · rw [if_pos hnull]
        show nullishCoalesce (JsValue.vstr []) (JsValue.vstr []) =
          nullishCoalesce kv.2 (JsValue.vstr [])
        unfold nullishCoalesce
        rw [if_pos hnull, if_neg (by decide)]
      · rw [if_neg hnull]
    · rw [nullsAsEmpty, List.map_cons, getField,
        List.find?_cons_of_neg _ (by by_cases hnull : kv.2.isNullish = true <;> simp [hnull, hk]),
        getField, List.find?_cons_of_neg _ (by simp [hk])]
      exact ih

theorem csvCellString_nullsAsEmpty (row : Row) (name : JStr) :
    csvCellString (nullsAsEmpty row) name = csvCellString row name := by
  unfold csvCellString
  rw [coalesce_getField_nullsAsEmpty]

theorem csvLine_nullsAsEmpty (columnNames : List JStr) (row : Row) :
    csvLine columnNames (nullsAsEmpty row) = csvLine columnNames row := by
  unfold csvLine
  congr 1
  congr 1
  refine List.map_congr_left ?_
  intro name _
  rw [csvCellString_nullsAsEmpty]

/-- C10: a NULL (or undefined) cell renders as the empty string in CSV but
as the literal text `NULL` in the table format, so CSV output cannot
distinguish a NULL cell from an empty-string cell: replacing every NULL
cell by an empty string leaves the whole CSV output unchanged, while the
table outputs for a NULL cell and an empty-string cell differ. -/
theorem claim_C10 :
    (∀ (row : Row) (name : JStr), (getField row name).isNullish = true →
        csvCellString row name = []) ∧
    (∀ (row : Row) (name : JStr), (getField row name).isNullish = true →
        tableCellString row name = "NULL".data) ∧
    (∀ (rows : List Row) (columnNames : List JStr),
        formatAsCsv (rows.map nullsAsEmpty) columnNames = formatAsCsv rows columnNames) ∧
    (formatAsTable [[(['a'], JsValue.vnull)]] [['a']] ≠
      formatAsTable [[(['a'], JsValue.vstr [])]] [['a']]) := by
  refine ⟨?_, ?_, ?_, by decide⟩
  · intro row name h
    simp [csvCellString, nullishCoalesce, h, jsString]
  · intro row name h
    simp [tableCellString, nullishCoalesce, h, jsString]
  · intro rows columnNames
    unfold formatAsCsv
    have hempty : (rows.map nullsAsEmpty).isEmpty = rows.isEmpty := by
      cases rows <;> rfl
    rw [hempty]
    by_cases h : rows.isEmpty = true
    · simp [h]
    · simp only [h, Bool.false_eq_true, if_false]
      congr 2
      rw [List.map_map]
      refine List.map_congr_left ?_
      intro row _
      simp only [Function.comp]
      rw [csvLine_nullsAsEmpty]

/-! ## Claim C9: closeAll -/

theorem endConnsLoop_eq (cs closed : List Nat) : endConnsLoop cs closed = closed ++ cs := by
  induction cs generalizing closed with
  | nil => simp [endConnsLoop]
  | cons c rest ih =>
    rw [endConnsLoop, ih]
    simp

/-- C9: `closeAll` closes every pooled connection the adapter owns, leaves
its profile-to-connection map empty, is a no-op on an empty map, and is
idempotent; the factory's `closeAll` nulls both utilities, closes every
connection and pool they owned, and calling it twice equals calling it
once. -/
theorem claim_C9 :
    (∀ (pool : ConnPool) (w : World), (MySQLUtil.closeAll pool w).1 = []) ∧
    (∀ (pool : ConnPool) (w : World) (c : Nat), c ∈ pool.map Prod.snd →
        c ∈ (MySQLUtil.closeAll pool w).2.closedConns) ∧
    (∀ w : World, MySQLUtil.closeAll [] w = ([], w)) ∧
    (∀ (pool : ConnPool) (w : World),
        MySQLUtil.closeAll (MySQLUtil.closeAll pool w).1 (MySQLUtil.closeAll pool w).2 =
          MySQLUtil.closeAll pool w) ∧
    (∀ (pool : ConnPool) (w : World), (PostgreSQLUtil.closeAll pool w).1 = []) ∧
    (∀ (pool : ConnPool) (w : World) (p : Nat), p ∈ pool.map Prod.snd →
        p ∈ (PostgreSQLUtil.closeAll pool w).2.closedPools) ∧
    (∀ w : World, PostgreSQLUtil.closeAll [] w = ([], w)) ∧
    (∀ (st : FactoryState) (w : World),
        (DatabaseFactory.closeAll st w).1 = { mysql := none, postgresql := none }) ∧
    (∀ (st : FactoryState) (w : World) (pool : ConnPool) (c : Nat),
        st.mysql = some pool → c ∈ pool.map Prod.snd →
        c ∈ (DatabaseFactory.closeAll st w).2.closedConns) ∧
    (∀ (st : FactoryState) (w : World) (pool : ConnPool) (p : Nat),
        st.postgresql = some pool → p ∈ pool.map Prod.snd →
        p ∈ (DatabaseFactory.closeAll st w).2.closedPools) ∧
    (∀ (st : FactoryState) (w : World),
        DatabaseFactory.closeAll (DatabaseFactory.closeAll st w).1
            (DatabaseFactory.closeAll st w).2 =
          DatabaseFactory.closeAll st w) := by
  have hm1 : ∀ (pool : ConnPool) (w : World), (MySQLUtil.closeAll pool w).1 = [] :=
    fun pool w => rfl
  have hm2 : ∀ (pool : ConnPool) (w : World) (c : Nat), c ∈ pool.map Prod.snd →
      c ∈ (MySQLUtil.closeAll pool w).2.closedConns := by
    intro pool w c hc
    show c ∈ endConnsLoop (pool.map Prod.snd) w.closedConns
    rw [endConnsLoop_eq]
    exact List.mem_append_right _ hc
  have hm3 : ∀ w : World, MySQLUtil.closeAll [] w = ([], w) := by
    intro w
    show ([], { w with closedConns := endConnsLoop [] w.closedConns }) = (([] : ConnPool), w)
    rw [endConnsLoop]
  have hp2 : ∀ (pool : ConnPool) (w : World) (p : Nat), p ∈ pool.map Prod.snd →
      p ∈ (PostgreSQLUtil.closeAll pool w).2.closedPools := by
    intro pool w p hp
    show p ∈ endConnsLoop (pool.map Prod.snd) w.closedPools
    rw [endConnsLoop_eq]
    exact List.mem_append_right _ hp
  have hp3 : ∀ w : World, PostgreSQLUtil.closeAll [] w = ([], w) := by
    intro w
    show ([], { w with closedPools := endConnsLoop [] w.closedPools }) = (([] : ConnPool), w)
    rw [endConnsLoop]
  have hfact : ∀ (st : FactoryState) (w : World),
      (DatabaseFactory.closeAll st w).1 = { mysql := none, postgresql := none } := by
    intro st w
    unfold DatabaseFactory.closeAll
    cases st.mysql <;> cases st.postgresql <;> rfl
  refine ⟨hm1, hm2, hm3, ?_, fun pool w => rfl, hp2, hp3, hfact, ?_, ?_, ?_⟩
  · intro pool w
    rw [hm1 pool w]
    exact hm3 _
  · intro st w pool c hst hc
    unfold DatabaseFactory.closeAll
    rw [hst]
    cases st.postgresql with
    | none => exact hm2 pool w c hc
    | some pgpool =>
      show c ∈ (PostgreSQLUtil.closeAll pgpool (MySQLUtil.closeAll pool w).2).2.closedConns
      exact hm2 pool w c hc
  · intro st w pool p hst hp
    unfold DatabaseFactory.closeAll
    rw [hst]
    cases hm : st.mysql with
    | none => exact hp2 pool w p hp
    | some mpool => exact hp2 pool _ p hp
  · intro st w
    have h1 : DatabaseFactory.closeAll { mysql := none, postgresql := none }
        (DatabaseFactory.closeAll st w).2 =
        ({ mysql := none, postgresql := none }, (DatabaseFactory.closeAll st w).2) := rfl
    rw [hfact st w, h1]
    exact Prod.ext_iff.mpr ⟨(hfact st w).symm, rfl⟩

/-! ## Claim C2: the early exits of executeQuery -/

/-- C2: for both adapters, a blacklisted statement makes `executeQuery`
fail with the block reason, executing nothing and leaving the
profile-to-connection map unchanged — regardless of whether a confirmation
keyword also matches, so the blacklist outcome takes precedence; a
non-blacklisted statement matching a confirmation keyword makes it fail
with `requiresConfirmation = true` and the confirmation message, again
executing nothing and leaving the map unchanged. -/
theorem claim_C2 :
    (∀ (env : MySQLEnv) (safety : SafetyConfig) (pool : ConnPool)
        (profileName query : JStr) (format : OutputFormat),
        (checkBlacklist query safety.blacklistedOperations).allowed = false →
        MySQLUtil.executeQuery env safety pool profileName query format =
          ({ success := false,
             error := some (blockedErrorText
               (checkBlacklist query safety.blacklistedOperations).reason) },
           pool, [])) ∧
    (∀ (env : MySQLEnv) (safety : SafetyConfig) (pool : ConnPool)
        (profileName query : JStr) (format : OutputFormat),
        (checkBlacklist query safety.blacklistedOperations).allowed = true →
        (requiresConfirmation query safety.requireConfirmationFor).required = true →
        MySQLUtil.executeQuery env safety pool profileName query format =
          ({ success := false, requiresConfirmation := some true,
             message := some (confirmationWarningText
               (requiresConfirmation query safety.requireConfirmationFor).message query) },
           pool, [])) ∧
    (∀ (env : PGEnv) (safety : SafetyConfig) (pool : ConnPool)
        (profileName query : JStr) (format : OutputFormat),
        (checkBlacklist query safety.blacklistedOperations).allowed = false →
        PostgreSQLUtil.executeQuery env safety pool profileName query format =
          ({ success := false,
             error := some (blockedErrorText
               (checkBlacklist query safety.blacklistedOperations).reason) },
           pool, [])) ∧
    (∀ (env : PGEnv) (safety : SafetyConfig) (pool : ConnPool)
        (profileName query : JStr) (format : OutputFormat),
        (checkBlacklist query safety.blacklistedOperations).allowed = true →
        (requiresConfirmation query safety.requireConfirmationFor).required = true →
        PostgreSQLUtil.executeQuery env safety pool profileName query format =
          ({ success := false, requiresConfirmation := some true,
             message := some (confirmationWarningText
               (requiresConfirmation query safety.requireConfirmationFor).message query) },
           pool, [])) := by
  refine ⟨?_, ?_, ?_, ?_⟩
  · intro env safety pool profileName query format h
    unfold MySQLUtil.executeQuery
    rw [if_pos h]
  · intro env safety pool profileName query format h1 h2
    unfold MySQLUtil.executeQuery
    rw [if_neg (by simp [h1]), if_pos h2]
  · intro env safety pool profileName query format h
    unfold PostgreSQLUtil.executeQuery
    rw [if_pos h]
  · intro env safety pool profileName query format h1 h2
    unfold PostgreSQLUtil.executeQuery
    rw [if_neg (by simp [h1]), if_pos h2]

/-! ## Claim C8: the JSON round trip -/

theorem skipWS_append_allWS {u : JStr} (hu : ∀ c ∈ u, jsonWS c = true) (x : JStr) :
    skipWS (u ++ x) = skipWS x := by
  induction u with
  | nil => rfl
  | cons c t ih =>
    rw [List.cons_append, skipWS, List.dropWhile_cons,
      if_pos (hu c (List.mem_cons_self c t))]
    exact ih (fun d hd => hu d (List.mem_cons_of_mem c hd))

theorem skipWS_cons_neg {c : Char} (h : jsonWS c = false) (x : JStr) :
    skipWS (c :: x) = c :: x := by
  rw [skipWS, List.dropWhile_cons, if_neg (by simp [h])]

theorem hexVal_hexDigitChar {n : Nat} (h : n < 16) : hexVal (hexDigitChar n) = some n := by
  interval_cases n <;> decide

theorem parseStringBody_escape (s rest : JStr) :
    parseStringBody (jsonEscape s ++ '"' :: rest) = some (s, rest) := by
  induction s with
  | nil =>
    rw [show jsonEscape [] ++ '"' :: rest = '"' :: rest from rfl, parseStringBody.eq_def]
    simp
  | cons c cs ih =>
    rw [jsonEscape] at ih
    rw [jsonEscape, List.flatMap_cons, List.append_assoc]
    by_cases h1 : c = '"'
    · subst h1
      rw [show jsonEscapeChar '"' = ['\\', '"'] from rfl, List.cons_append, List.cons_append,
        List.nil_append, parseStringBody.eq_def]
      simp [unescapeChar, ih]
    by_cases h2 : c = '\\'
    · subst h2
      rw [show jsonEscapeChar '\\' = ['\\', '\\'] from rfl, List.cons_append, List.cons_append,
        List.nil_append, parseStringBody.eq_def]
      simp [unescapeChar, ih]
    by_cases h3 : c = '\x08'
    · subst h3
      rw [show jsonEscapeChar '\x08' = ['\\', 'b'] from rfl, List.cons_append, List.cons_append,
        List.nil_append, parseStringBody.eq_def]
      simp [unescapeChar, ih]
    by_cases h4 : c = '\t'
    · subst h4
      rw [show jsonEscapeChar '\t' = ['\\', 't'] from rfl, List.cons_append, List.cons_append,
        List.nil_append, parseStringBody.eq_def]
      simp [unescapeChar, ih]
    by_cases h5 : c = '\n'
    · subst h5
      rw [show jsonEscapeChar '\n' = ['\\', 'n'] from rfl, List.cons_append, List.cons_append,
        List.nil_append, parseStringBody.eq_def]
      simp [unescapeChar, ih]
    by_cases h6 : c = '\x0c'
    · subst h6
      rw [show jsonEscapeChar '\x0c' = ['\\', 'f'] from rfl, List.cons_append, List.cons_append,
        List.nil_append, parseStringBody.eq_def]
      simp [unescapeChar, ih]
    by_cases h7 : c = '\r'
    · subst h7
      rw [show jsonEscapeChar '\r' = ['\\', 'r'] from rfl, List.cons_append, List.cons_append,
        List.nil_append, parseStringBody.eq_def]
      simp [unescapeChar, ih]
    by_cases h8 : c.toNat < 32
    · have hesc : jsonEscapeChar c =
          ['\\', 'u', '0', '0', hexDigitChar (c.toNat / 16), hexDigitChar (c.toNat % 16)] := by
        unfold jsonEscapeChar
        rw [if_neg h1, if_neg h2, if_neg h3, if_neg h4, if_neg h5, if_neg h6, if_neg h7,
          if_pos h8]
      have hdiv : hexVal (hexDigitChar (c.toNat / 16)) = some (c.toNat / 16) :=
        hexVal_hexDigitChar (by omega)
      have hmod : hexVal (hexDigitChar (c.toNat % 16)) = some (c.toNat % 16) :=
        hexVal_hexDigitChar (Nat.mod_lt _ (by omega))
      have hval : (c.toNat).isValidChar := Or.inl (by omega)
      have h0 : hexVal '0' = some 0 := by decide
      have hrec : c.toNat / 16 * 16 + c.toNat % 16 = c.toNat := by omega
      rw [hesc]
      simp only [List.cons_append, List.nil_append]
      rw [parseStringBody.eq_def]
      simp [h0, hdiv, hmod, hrec, hval, ih, Char.ofNat_toNat]
    · have hesc : jsonEscapeChar c = [c] := by
        unfold jsonEscapeChar
        rw [if_neg h1, if_neg h2, if_neg h3, if_neg h4, if_neg h5, if_neg h6, if_neg h7,
          if_neg h8]
      rw [hesc]
      simp only [List.cons_append, List.nil_append]
      rw [parseStringBody.eq_def]
      simp [if_neg h1, if_neg h2, ih]

theorem digitVal_digitChar {m : Nat} (h : m < 10) :
    digitVal (Char.ofNat (48 + m)) = some m := by
  interval_cases m <;> decide

theorem toNat_digitChar {m : Nat} (h : m < 10) : (Char.ofNat (48 + m)).toNat = 48 + m :=
  toNat_ofNat_of_valid (Or.inl (by omega))

theorem natToCharsAux_digits {fuel n : Nat} (h : n < fuel) :
    ∀ c ∈ natToCharsAux fuel n, digitVal c = some (c.toNat - 48) := by
  induction fuel generalizing n with
  | zero => omega
  | succ f ih =>
    rw [natToCharsAux]
    by_cases h10 : n < 10
    · rw [if_pos h10]
      intro c hc
      rw [List.mem_singleton] at hc
      subst hc
      rw [digitVal_digitChar h10, toNat_digitChar h10]
      congr 1
      omega
    · rw [if_neg h10]
      intro c hc
      rcases List.mem_append.mp hc with hc | hc
      · exact ih (by omega) c hc
      · rw [List.mem_singleton] at hc
        subst hc
        have hm : n % 10 < 10 := Nat.mod_lt _ (by omega)
        rw [digitVal_digitChar hm, toNat_digitChar hm]
        congr 1
        omega

theorem natToCharsAux_ne_nil {fuel n : Nat} (h : n < fuel) : natToCharsAux fuel n ≠ [] := by
  cases fuel with
  | zero => omega
  | succ f =>
    rw [natToCharsAux]
    by_cases h10 : n < 10 <;> simp [h10]

theorem parseNatAux_digits_append {ds : JStr}
    (hds : ∀ c ∈ ds, digitVal c = some (c.toNat - 48)) (rest : JStr) (acc : Nat) :
    parseNatAux (ds ++ rest) acc =
      parseNatAux rest (ds.foldl (fun a c => a * 10 + (c.toNat - 48)) acc) := by
  induction ds generalizing acc with
  | nil => rfl
  | cons c t ih =>
    rw [List.cons_append, parseNatAux, hds c (List.mem_cons_self c t), List.foldl_cons]
    exact ih (fun d hd => hds d (List.mem_cons_of_mem c hd)) _

theorem parseNatAux_stop {rest : JStr}
    (h : ∀ c, rest.head? = some c → digitVal c = none) (acc : Nat) :
    parseNatAux rest acc = (acc, rest) := by
  cases rest with
  | nil => rfl
  | cons c t => rw [parseNatAux, h c rfl]

theorem foldl_natToCharsAux {fuel n : Nat} (h : n < fuel) :
    (natToCharsAux fuel n).foldl (fun a c => a * 10 + (c.toNat - 48)) 0 = n := by
  induction fuel generalizing n with
  | zero => omega
  | succ f ih =>
    rw [natToCharsAux]
    by_cases h10 : n < 10
    · rw [if_pos h10]
      rw [List.foldl_cons, List.foldl_nil, toNat_digitChar h10]
      omega
    · rw [if_neg h10, List.foldl_append, ih (by omega), List.foldl_cons, List.foldl_nil,
        toNat_digitChar (Nat.mod_lt _ (by omega))]
      omega

theorem parseNonneg_natToChars (n : Nat) {rest : JStr}
    (hrest : ∀ c, rest.head? = some c → digitVal c = none) :
    parseNonneg (natToChars n ++ rest) = some (n, rest) := by
  have hds := natToCharsAux_digits (Nat.lt_succ_self n)
  have hne := natToCharsAux_ne_nil (Nat.lt_succ_self n)
  obtain ⟨c, t, hct⟩ := List.exists_cons_of_ne_nil hne
  have hparse : parseNatAux (natToChars n ++ rest) 0 = (n, rest) := by
    rw [natToChars, parseNatAux_digits_append hds, parseNatAux_stop hrest,
      foldl_natToCharsAux (Nat.lt_succ_self n)]
  have hcd : digitVal c = some (c.toNat - 48) :=
    hds c (by rw [hct]; exact List.mem_cons_self c t)
  rw [natToChars] at hparse ⊢
  rw [hct] at hparse ⊢
  rw [List.cons_append, parseNonneg, if_pos (by rw [hcd]; rfl), ← List.cons_append, hparse]

theorem digit_head_facts {c : Char} {d : Nat} (h : digitVal c = some d) :
    c ≠ '"' ∧ c ≠ 'n' ∧ c ≠ 't' ∧ c ≠ 'f' ∧ c ≠ '-' ∧ jsonWS c = false := by
  have hb : ('0' ≤ c && c ≤ '9') = true := by
    by_cases hb : ('0' ≤ c && c ≤ '9') = true
    · exact hb
    · rw [digitVal, if_neg hb] at h
      cases h
  obtain ⟨hl, hr⟩ := Bool.and_eq_true_iff.mp hb
  have h1 : 48 ≤ c.toNat := Char.le_def.mp (of_decide_eq_true hl)
  have h2 : c.toNat ≤ 57 := Char.le_def.mp (of_decide_eq_true hr)
  refine ⟨?_, ?_, ?_, ?_, ?_, ?_⟩
  · intro e; subst e; exact absurd h1 (by decide)
  · intro e; subst e; exact absurd h2 (by decide)
  · intro e; subst e; exact absurd h2 (by decide)
  · intro e; subst e; exact absurd h2 (by decide)
  · intro e; subst e; exact absurd h1 (by decide)
  · have j1 : c ≠ ' ' := fun e => absurd h1 (by subst e; decide)
    have j2 : c ≠ '\t' := fun e => absurd h1 (by subst e; decide)
    have j3 : c ≠ '\n' := fun e => absurd h1 (by subst e; decide)
    have j4 : c ≠ '\r' := fun e => absurd h1 (by subst e; decide)
    simp [jsonWS, j1, j2, j3, j4]

theorem parseNumber_intToChars (m : Int) {rest : JStr}
    (hrest : ∀ c, rest.head? = some c → digitVal c = none) :
    parseNumber (intToChars m ++ rest) = some (m, rest) := by
  by_cases hm : m < 0
  · rw [intToChars, if_pos hm, List.cons_append, parseNumber]
    rw [if_pos rfl, parseNonneg_natToChars m.natAbs hrest]
    simp only [Option.map_some']
    congr 2
    omega
  · rw [intToChars, if_neg hm]
    have hne := natToCharsAux_ne_nil (Nat.lt_succ_self m.toNat)
    obtain ⟨c, t, hct⟩ := List.exists_cons_of_ne_nil hne
    have hcd : digitVal c = some (c.toNat - 48) :=
      natToCharsAux_digits (Nat.lt_succ_self m.toNat) c
        (by rw [hct]; exact List.mem_cons_self c t)
    have hnn : parseNonneg (natToChars m.toNat ++ rest) = some (m.toNat, rest) :=
      parseNonneg_natToChars m.toNat hrest
    rw [natToChars] at hnn ⊢
    rw [hct] at hnn ⊢
    rw [List.cons_append, parseNumber, if_neg (digit_head_facts hcd).2.2.2.2.1,
      ← List.cons_append, hnn]
    simp only [Option.map_some']
    congr 2
    omega

theorem parseScalar_stringify {v : JsValue} {t : JStr} (hsafe : v.jsonSafeScalar = true)
    (ht : stringifyScalar v = some t) (w rest : JStr) (hw : ∀ c ∈ w, jsonWS c = true)
    (hrest : ∀ c, rest.head? = some c → digitVal c = none) :
    parseScalar (w ++ (t ++ rest)) = some (v, rest) := by
  match v with
  | .vnull =>
    obtain rfl : (['n', 'u', 'l', 'l'] : JStr) = t := Option.some.inj ht
    unfold parseScalar
    rw [skipWS_append_allWS hw, List.cons_append, skipWS_cons_neg (by decide)]
    simp [List.isPrefixOf]
  | .vbool true =>
    obtain rfl : (['t', 'r', 'u', 'e'] : JStr) = t := Option.some.inj ht
    unfold parseScalar
    rw [skipWS_append_allWS hw, List.cons_append, skipWS_cons_neg (by decide)]
    simp [List.isPrefixOf]
  | .vbool false =>
    obtain rfl : (['f', 'a', 'l', 's', 'e'] : JStr) = t := Option.some.inj ht
    unfold parseScalar
    rw [skipWS_append_allWS hw, List.cons_append, skipWS_cons_neg (by decide)]
    simp [List.isPrefixOf]
  | .vstr s =>
    obtain rfl : jsonQuote s = t := Option.some.inj ht
    unfold parseScalar
    rw [jsonQuote, List.cons_append, skipWS_append_allWS hw, skipWS_cons_neg (by decide),
      List.append_assoc, List.cons_append, List.nil_append]
    simp [parseStringBody_escape]
  | .vint m =>
    obtain rfl : intToChars m = t := Option.some.inj ht
    by_cases hm : m < 0
    · unfold parseScalar
      rw [intToChars, if_pos hm, List.cons_append, skipWS_append_allWS hw,
        skipWS_cons_neg (by decide)]
      have hnum : parseNumber (intToChars m ++ rest) = some (m, rest) :=
        parseNumber_intToChars m hrest
      rw [intToChars, if_pos hm, List.cons_append] at hnum
      simp [hnum]
    · have hne := natToCharsAux_ne_nil (Nat.lt_succ_self m.toNat)
      obtain ⟨c, tl, hct⟩ := List.exists_cons_of_ne_nil hne
      have hcd : digitVal c = some (c.toNat - 48) :=
        natToCharsAux_digits (Nat.lt_succ_self m.toNat) c
          (by rw [hct]; exact List.mem_cons_self c tl)
      obtain ⟨hq, hn, htt, hf, hminus, hws⟩ := digit_head_facts hcd
      have hnum : parseNumber (intToChars m ++ rest) = some (m, rest) :=
        parseNumber_intToChars m hrest
      unfold parseScalar
      rw [intToChars, if_neg hm, natToChars, hct] at hnum ⊢
      rw [List.cons_append] at hnum
      rw [List.cons_append, skipWS_append_allWS hw, skipWS_cons_neg hws]
      simp [hq, hn, htt, hf, hnum]

theorem parseMember_render {v : JsValue} {t : JStr} (hsafe : v.jsonSafeScalar = true)
    (ht : stringifyScalar v = some t) (k : JStr) (w rest : JStr)
    (hw : ∀ c ∈ w, jsonWS c = true)
    (hrest : ∀ c, rest.head? = some c → digitVal c = none) :
    parseMember (w ++ (jsonMember k t ++ rest)) = some ((k, v), rest) := by
  unfold parseMember
  rw [jsonMember, List.cons_append, List.append_assoc, List.cons_append, List.cons_append,
    List.cons_append, skipWS_append_allWS hw, skipWS_cons_neg (by decide)]
  have hsc := parseScalar_stringify hsafe ht [' '] rest (by decide) hrest
  rw [List.cons_append, List.nil_append] at hsc
  simp [parseStringBody_escape, skipWS_cons_neg (show jsonWS ':' = false from by decide), hsc]

theorem stringifyScalar_safe {v : JsValue} (h : v.jsonSafeScalar = true) :
    ∃ t, stringifyScalar v = some t := by
  match v with
  | .vnull => exact ⟨_, rfl⟩
  | .vbool true => exact ⟨_, rfl⟩
  | .vbool false => exact ⟨_, rfl⟩
  | .vint _ => exact ⟨_, rfl⟩
  | .vstr _ => exact ⟨_, rfl⟩

theorem rowMembers_cons {k : JStr} {v : JsValue} {t : JStr}
    (ht : stringifyScalar v = some t) (row : Row) :
    rowMembers ((k, v) :: row) = jsonMember k t :: rowMembers row := by
  unfold rowMembers
  rw [List.filterMap_cons]
  simp [ht]

theorem digitVal_of_ws {c : Char} (h : jsonWS c = true) : digitVal c = none := by
  have h' : ((c = ' ' ∨ c = '\t') ∨ c = '\n') ∨ c = '\r' := by
    simpa [jsonWS] using h
  rcases h' with ((rfl | rfl) | rfl) | rfl <;> decide

theorem noDigitHead_cons {c0 : Char} (h : digitVal c0 = none) (X : JStr) :
    ∀ c, (c0 :: X).head? = some c → digitVal c = none := by
  intro c hc
  obtain rfl : c0 = c := Option.some.inj hc
  exact h

theorem noDigitHead_ws_append {u : JStr} (hu : ∀ c ∈ u, jsonWS c = true) {c0 : Char}
    (h : digitVal c0 = none) (rest : JStr) :
    ∀ c, (u ++ c0 :: rest).head? = some c → digitVal c = none := by
  cases u with
  | nil => exact noDigitHead_cons h rest
  | cons a t =>
    intro c hc
    obtain rfl : a = c := Option.some.inj hc
    exact digitVal_of_ws (hu a (List.mem_cons_self a t))

theorem parseMembersAux_render :
    ∀ (row : Row) (k : JStr) (v : JsValue) (fuel : Nat) (acc : Row) (w u rest : JStr),
      rowJsonSafe ((k, v) :: row) = true →
      row.length < fuel →
      (∀ c ∈ w, jsonWS c = true) →
      (∀ c ∈ u, jsonWS c = true) →
      parseMembersAux fuel
          (w ++ (renderMembersList (rowMembers ((k, v) :: row)) ++ (u ++ '}' :: rest))) acc =
        some (acc ++ (k, v) :: row, rest) := by
  intro row
  induction row with
  | nil =>
    intro k v fuel acc w u rest hsafe hfuel hw hu
    have hv : v.jsonSafeScalar = true := by simpa [rowJsonSafe] using hsafe
    obtain ⟨t, ht⟩ := stringifyScalar_safe hv
    match fuel, hfuel with
    | f + 1, _ =>
      rw [rowMembers_cons ht, show rowMembers [] = [] from rfl, renderMembersList,
        parseMembersAux]
      have hm := parseMember_render hv ht k w (u ++ '}' :: rest) hw
        (noDigitHead_ws_append hu (by decide) rest)
      rw [hm]
      simp [skipWS_append_allWS hu, skipWS_cons_neg (show jsonWS '}' = false from by decide)]
  | cons kv' row' ih =>
    intro k v fuel acc w u rest hsafe hfuel hw hu
    obtain ⟨k', v'⟩ := kv'
    simp only [rowJsonSafe, List.all_cons, Bool.and_eq_true] at hsafe
    have hv : v.jsonSafeScalar = true := hsafe.1
    have hv' : v'.jsonSafeScalar = true := hsafe.2.1
    have hrest : rowJsonSafe ((k', v') :: row') = true := by
      simp only [rowJsonSafe, List.all_cons, Bool.and_eq_true]
      exact hsafe.2
    obtain ⟨t, ht⟩ := stringifyScalar_safe hv
    obtain ⟨t', ht'⟩ := stringifyScalar_safe hv'
    match fuel, hfuel with
    | f + 1, hfuel =>
      rw [rowMembers_cons ht, rowMembers_cons ht', parseMembersAux]
      rw [show renderMembersList (jsonMember k t :: jsonMember k' t' :: rowMembers row') =
          jsonMember k t ++ ',' :: '\n' ::
            (indent4 ++ renderMembersList (jsonMember k' t' :: rowMembers row')) from rfl]
      have hm := parseMember_render hv ht k w
        (',' :: '\n' :: (indent4 ++ (renderMembersList (jsonMember k' t' :: rowMembers row') ++
          (u ++ '}' :: rest)))) hw (noDigitHead_cons (by decide) _)
      simp only [List.append_assoc, List.cons_append, List.nil_append] at hm ⊢
      rw [hm]
      have hih := ih k' v' f (acc ++ [(k, v)]) ('\n' :: indent4) u rest hrest
        (by simp only [List.length_cons] at hfuel; omega) (by decide) hu
      rw [rowMembers_cons ht'] at hih
      simp only [List.append_assoc, List.cons_append, List.nil_append] at hih
      simp [skipWS_cons_neg (show jsonWS ',' = false from by decide), hih]

theorem renderMembersList_head (m0 : JStr) (t : JStr) (ms : List JStr) :
    renderMembersList (jsonMember m0 t :: ms) =
      '"' :: (jsonEscape m0 ++ '"' :: ':' :: ' ' :: t).append
        (match ms with
         | [] => []
         | _ :: _ => ',' :: '\n' :: (indent4 ++ renderMembersList ms)) := by
  cases ms with
  | nil => simp [renderMembersList, jsonMember]
  | cons m ms' => simp [renderMembersList, jsonMember]

theorem parseObject_render {row : Row} (hsafe : rowJsonSafe row = true) (fuel : Nat)
    (hfuel : row.length ≤ fuel) (w rest : JStr) (hw : ∀ c ∈ w, jsonWS c = true) :
    parseObject fuel (w ++ (renderRow row ++ rest)) = some (row, rest) := by
  cases row with
  | nil =>
    unfold parseObject
    rw [show renderRow [] = ['{', '}'] from rfl, List.cons_append, List.cons_append,
      List.nil_append, skipWS_append_allWS hw, skipWS_cons_neg (by decide)]
    simp [skipWS_cons_neg (show jsonWS '}' = false from by decide)]
  | cons kv row' =>
    obtain ⟨k, v⟩ := kv
    have hv : v.jsonSafeScalar = true := by
      simp only [rowJsonSafe, List.all_cons, Bool.and_eq_true] at hsafe
      exact hsafe.1
    obtain ⟨t, ht⟩ := stringifyScalar_safe hv
    have hrr : renderRow ((k, v) :: row') =
        '{' :: '\n' :: (indent4 ++ renderMembersList (jsonMember k t :: rowMembers row') ++
          '\n' :: indent2 ++ ['}']) := by
      unfold renderRow
      rw [rowMembers_cons ht]
    unfold parseObject
    rw [hrr]
    simp only [List.append_assoc, List.cons_append, List.nil_append]
    rw [skipWS_append_allWS hw, skipWS_cons_neg (by decide)]
    have hmem := parseMembersAux_render row' k v fuel [] ('\n' :: indent4) ('\n' :: indent2)
      rest hsafe (by simp only [List.length_cons] at hfuel; omega) (by decide) (by decide)
    rw [rowMembers_cons ht] at hmem
    simp only [List.append_assoc, List.cons_append, List.nil_append] at hmem
    have hhead : ∃ B, renderMembersList (jsonMember k t :: rowMembers row') = '"' :: B := by
      cases hms : rowMembers row' with
      | nil => exact ⟨_, rfl⟩
      | cons m ms' => exact ⟨_, rfl⟩
    obtain ⟨B, hB⟩ := hhead
    rw [hB] at hmem ⊢
    simp only [List.cons_append] at hmem ⊢
    have hskip : skipWS ('\n' :: (indent4 ++ ('"' :: (B ++
        ('\n' :: (indent2 ++ '}' :: rest)))))) =
        '"' :: (B ++ ('\n' :: (indent2 ++ '}' :: rest))) := by
      rw [← List.cons_append, skipWS_append_allWS (by decide),
        skipWS_cons_neg (by decide)]
    rw [hskip]
    simp [hmem]

theorem parseRowsAux_render :
    ∀ (rows : List Row) (r : Row) (fuel : Nat) (acc : List Row) (w u rest : JStr),
      rowsJsonSafe (r :: rows) = true →
      (r :: rows).foldr (fun row a => row.length + 1 + a) 0 ≤ fuel →
      (∀ c ∈ w, jsonWS c = true) →
      (∀ c ∈ u, jsonWS c = true) →
      parseRowsAux fuel (w ++ (renderRowsList (r :: rows) ++ (u ++ ']' :: rest))) acc =
        some (acc ++ r :: rows, rest) := by
  intro rows
  induction rows with
  | nil =>
    intro r fuel acc w u rest hsafe hfuel hw hu
    have hr : rowJsonSafe r = true := by simpa [rowsJsonSafe] using hsafe
    simp only [List.foldr_cons, List.foldr_nil] at hfuel
    match fuel, hfuel with
    | 0, hfuel => exact absurd hfuel (by omega)
    | f + 1, hfuel =>
      rw [renderRowsList, parseRowsAux]
      have hob := parseObject_render hr f (by omega) w (u ++ ']' :: rest) hw
      rw [hob]
      simp [skipWS_append_allWS hu, skipWS_cons_neg (show jsonWS ']' = false from by decide)]
  | cons r' rows' ih =>
    intro r fuel acc w u rest hsafe hfuel hw hu
    have hr : rowJsonSafe r = true := by
      simp only [rowsJsonSafe, List.all_cons, Bool.and_eq_true] at hsafe
      exact hsafe.1
    have hsafe' : rowsJsonSafe (r' :: rows') = true := by
      simp only [rowsJsonSafe, List.all_cons, Bool.and_eq_true] at hsafe ⊢
      exact ⟨hsafe.2.1, hsafe.2.2⟩
    simp only [List.foldr_cons] at hfuel
    match fuel, hfuel with
    | 0, hfuel => exact absurd hfuel (by omega)
    | f + 1, hfuel =>
      rw [parseRowsAux]
      rw [show renderRowsList (r :: r' :: rows') =
          renderRow r ++ ',' :: '\n' :: (indent2 ++ renderRowsList (r' :: rows')) from rfl]
      have hob := parseObject_render hr f (by omega) w
        (',' :: '\n' :: (indent2 ++ (renderRowsList (r' :: rows') ++ (u ++ ']' :: rest)))) hw
      simp only [List.append_assoc, List.cons_append, List.nil_append] at hob ⊢
      rw [hob]
      have hih := ih r' f (acc ++ [r]) ('\n' :: indent2) u rest hsafe'
        (by simp only [List.foldr_cons]; omega) (by decide) hu
      simp only [List.append_assoc, List.cons_append, List.nil_append] at hih
      simp [skipWS_cons_neg (show jsonWS ',' = false from by decide), hih]

theorem renderMembersList_length {ms : List JStr} (h : ∀ m ∈ ms, m ≠ []) :
    ms.length ≤ (renderMembersList ms).length := by
  induction ms with
  | nil => simp [renderMembersList]
  | cons m rest ih =>
    have hm : m ≠ [] := h m (List.mem_cons_self m rest)
    have hm1 : 1 ≤ m.length := by
      cases m with
      | nil => exact absurd rfl hm
      | cons a t => simp
    cases rest with
    | nil => simpa [renderMembersList] using hm1
    | cons m' rest' =>
      have ih' := ih (fun x hx => h x (List.mem_cons_of_mem m hx))
      rw [show renderMembersList (m :: m' :: rest') =
          m ++ ',' :: '\n' :: (indent4 ++ renderMembersList (m' :: rest')) from rfl]
      simp only [List.length_cons, List.length_append] at ih' ⊢
      simp only [indent4, indent2] at *
      simp at *
      omega

theorem rowMembers_ne_nil {row : Row} : ∀ m ∈ rowMembers row, m ≠ [] := by
  intro m hm
  unfold rowMembers at hm
  rw [List.mem_filterMap] at hm
  obtain ⟨kv, _, hkv⟩ := hm
  match hs : stringifyScalar kv.2 with
  | none => rw [hs] at hkv; cases hkv
  | some t =>
    rw [hs] at hkv
    have : jsonMember kv.1 t = m := by simpa using hkv
    rw [← this, jsonMember]
    simp

theorem rowMembers_length {row : Row} (h : rowJsonSafe row = true) :
    (rowMembers row).length = row.length := by
  induction row with
  | nil => rfl
  | cons kv rest ih =>
    obtain ⟨k, v⟩ := kv
    simp only [rowJsonSafe, List.all_cons, Bool.and_eq_true] at h
    obtain ⟨t, ht⟩ := stringifyScalar_safe h.1
    rw [rowMembers_cons ht, List.length_cons, List.length_cons,
      ih (by simp only [rowJsonSafe]; exact h.2)]

theorem renderRow_length {row : Row} (h : rowJsonSafe row = true) :
    row.length + 1 ≤ (renderRow row).length := by
  cases hm : rowMembers row with
  | nil =>
    have h0 : row.length = 0 := by rw [← rowMembers_length h, hm]; rfl
    unfold renderRow
    rw [hm, h0]
    simp
  | cons m0 ms =>
    have hlen : (m0 :: ms).length ≤ (renderMembersList (m0 :: ms)).length := by
      have hall : (rowMembers row).length ≤ (renderMembersList (rowMembers row)).length :=
        renderMembersList_length rowMembers_ne_nil
      rwa [hm] at hall
    have hrl : row.length = (m0 :: ms).length := by rw [← rowMembers_length h, hm]
    unfold renderRow
    rw [hm, hrl]
    simp only [List.length_cons, List.length_append, indent4, indent2]
    simp at hlen ⊢
    omega

theorem renderRowsList_length {rows : List Row} {r : Row}
    (h : rowsJsonSafe (r :: rows) = true) :
    (r :: rows).foldr (fun row a => row.length + 1 + a) 0 ≤
      (renderRowsList (r :: rows)).length := by
  induction rows generalizing r with
  | nil =>
    have hr : rowJsonSafe r = true := by simpa [rowsJsonSafe] using h
    simpa [renderRowsList] using renderRow_length hr
  | cons r' rows' ih =>
    have hr : rowJsonSafe r = true := by
      simp only [rowsJsonSafe, List.all_cons, Bool.and_eq_true] at h
      exact h.1
    have h' : rowsJsonSafe (r' :: rows') = true := by
      simp only [rowsJsonSafe, List.all_cons, Bool.and_eq_true] at h ⊢
      exact ⟨h.2.1, h.2.2⟩
    have ih' := ih h'
    have hr' := renderRow_length hr
    have hi2 : (indent2 : JStr).length = 2 := rfl
    rw [show renderRowsList (r :: r' :: rows') =
        renderRow r ++ ',' :: '\n' :: (indent2 ++ renderRowsList (r' :: rows')) from rfl]
    simp only [List.foldr_cons] at ih' ⊢
    simp only [List.length_append, List.length_cons, hi2]
    omega

theorem renderRow_head (r : Row) : ∃ B, renderRow r = '{' :: B := by
  unfold renderRow
  cases rowMembers r with
  | nil => exact ⟨['}'], rfl⟩
  | cons m ms => exact ⟨_, rfl⟩

theorem renderRowsList_head (r : Row) (rows : List Row) :
    ∃ B, renderRowsList (r :: rows) = '{' :: B := by
  obtain ⟨B, hB⟩ := renderRow_head r
  cases rows with
  | nil => exact ⟨B, by rw [renderRowsList, hB]⟩
  | cons r' rows' =>
    refine ⟨B ++ ',' :: '\n' :: (indent2 ++ renderRowsList (r' :: rows')), ?_⟩
    rw [show renderRowsList (r :: r' :: rows') =
        renderRow r ++ ',' :: '\n' :: (indent2 ++ renderRowsList (r' :: rows')) from rfl, hB]
    rfl

/-- C8: `formatAsJson` renders the empty row list exactly as `[]`, and for
every list of JSON-safe rows (rows whose values are null, boolean, integer
or string), parsing the pretty-printed output recovers the rows equal by
value. -/
theorem claim_C8 :
    (formatAsJson [] = "[]".data) ∧
    (∀ rows : List Row, rowsJsonSafe rows = true →
      parseJson (formatAsJson rows) = some rows) := by
  refine ⟨rfl, ?_⟩
  intro rows hsafe
  cases rows with
  | nil => decide
  | cons r rows' =>
    rw [formatAsJson, if_neg (by simp)]
    obtain ⟨B, hB⟩ := renderRowsList_head r rows'
    unfold parseJson
    rw [skipWS_cons_neg (by decide)]
    have hskip : skipWS ('\n' :: (indent2 ++ (renderRowsList (r :: rows') ++ '\n' :: [']']))) =
        '{' :: (B ++ ('\n' :: [']'])) := by
      rw [← List.cons_append, skipWS_append_allWS (by decide), hB, List.cons_append,
        skipWS_cons_neg (by decide)]
    have hfuel : (r :: rows').foldr (fun row a => row.length + 1 + a) 0 ≤
        ('[' :: '\n' :: (indent2 ++ (renderRowsList (r :: rows') ++ '\n' :: [']']))).length := by
      have := renderRowsList_length hsafe
      simp only [List.length_cons, List.length_append]
      omega
    have hrender := parseRowsAux_render rows' r
      (('[' :: '\n' :: (indent2 ++ (renderRowsList (r :: rows') ++ '\n' :: [']']))).length)
      [] ('\n' :: indent2) ['\n'] [] hsafe hfuel (by decide) (by decide)
    simp only [List.append_assoc, List.cons_append, List.nil_append,
      List.length_cons, List.length_append, List.length_nil, Nat.zero_add] at hrender
    simp [hskip, hrender]
    rfl

/-! ## Witnesses: each claim theorem applied at a concrete input -/

/-- C1 witness: a plain `DELETE` statement requires confirmation with the
keyword named in the message. -/
theorem claim_C1_witness :
    requiresConfirmation "DELETE FROM users".data ["DELETE".data] =
      { required := true, message := some (confirmationMessage "DELETE".data) } :=
  claim_C1.1 "DELETE FROM users".data [] [] "DELETE".data
    (fun op hop => absurd hop (List.not_mem_nil op)) (Or.inl (by decide))

/-- C2 witness: a blacklisted statement is rejected with the block reason,
no connection made and nothing executed. -/
theorem claim_C2_witness :
    MySQLUtil.executeQuery
        { connect := fun _ => Except.error [], exec := fun _ _ => DriverReply.errorReply [],
          encode := fun _ => [] }
        { defaultLimit := 100,
          requireConfirmationFor := ["DELETE".data, "UPDATE".data, "DROP".data],
          blacklistedOperations := ["DROP DATABASE".data] }
        [] [] "DROP DATABASE prod".data OutputFormat.table =
      ({ success := false, error := some (blockedErrorText
          (checkBlacklist "DROP DATABASE prod".data ["DROP DATABASE".data]).reason) },
       [], []) :=
  claim_C2.1 _ _ _ _ _ _ (by decide)

/-- C3 witness: a lowercase occurrence of a blacklisted phrase is caught. -/
theorem claim_C3_witness :
    (checkBlacklist "drop database test".data ["DROP DATABASE".data]).allowed = false :=
  claim_C3.1 ["DROP DATABASE".data] "DROP DATABASE".data "drop database test".data
    (List.mem_singleton.mpr rfl) (by decide)
    ⟨"drop database".data, ⟨[], " test".data, by decide⟩, by decide⟩

/-- C4 witness: a SELECT with a lowercase LIMIT is returned unchanged. -/
theorem claim_C4_witness :
    applyDefaultLimit "SELECT * FROM users limit 50".data 100 =
      "SELECT * FROM users limit 50".data :=
  claim_C4.2.1 "SELECT * FROM users limit 50".data 100
    ⟨"limit".data, ⟨"SELECT * FROM users ".data, " 50".data, by decide⟩, by decide⟩

/-- C6 witness: a DELETE without WHERE gets the missing-WHERE warning. -/
theorem claim_C6_witness :
    warnMissingWhere ∈ analyzeQuery "DELETE FROM users".data :=
  (claim_C6 "DELETE FROM users".data).2.1.mpr ⟨Or.inr (by decide), by decide⟩

/-- C7 witness: a comma-bearing cell is quote-wrapped. -/
theorem claim_C7_witness :
    csvEscape ['a', ',', 'b'] = '"' :: (doubleQuotes ['a', ',', 'b'] ++ ['"']) :=
  claim_C7.2.2.2.1 ['a', ',', 'b'] (Or.inl (by decide))

/-- C8 witness: a two-row result with an integer and a string round-trips. -/
theorem claim_C8_witness :
    parseJson (formatAsJson [[(['i', 'd'], JsValue.vint 1), (['n'], JsValue.vstr ['a'])], []]) =
      some [[(['i', 'd'], JsValue.vint 1), (['n'], JsValue.vstr ['a'])], []] :=
  claim_C8.2 _ (by decide)

/-- C9 witness: closing one pooled connection empties the map and ends the
connection. -/
theorem claim_C9_witness :
    (MySQLUtil.closeAll [(['p'], 7)] { closedConns := [], closedPools := [] }).1 = [] ∧
      7 ∈ (MySQLUtil.closeAll [(['p'], 7)]
        { closedConns := [], closedPools := [] }).2.closedConns :=
  ⟨claim_C9.1 _ _, claim_C9.2.1 _ _ 7 (by decide)⟩

/-- C10 witness: a NULL cell renders as the empty CSV cell. -/
theorem claim_C10_witness :
    csvCellString [(['a'], JsValue.vnull)] ['a'] = [] :=
  claim_C10.1 _ _ (by decide)
